import Mathlib

/-!
# go-logger-lite: `logger/logx.go`

A shallow embedding of the package `logger` and of the parts of the Go
standard library it calls (`os.OpenFile`, `log.Logger`, `fmt.Sprint`,
`fmt.Print`), followed by the properties of the package.

Conventions of the embedding.

* The outside world is explicit: `World` records every `Write` call and every
  `os.OpenFile` call made so far, and `Env` holds what the program cannot
  decide itself (whether an open or a write fails, the clock, the caller's
  source position, the library's `fmt.Sprintf` on a caller-supplied format).
* A Go interface value or pointer that may be `nil` is an `Option`.
* A writer is a usable value: a pointer held in an `io.Writer` is not nil, and the `Write` of
  a writer returns. A nil `*os.File` or a nil `*bytes.Buffer` stored in an interface is not a
  value of `Writer`; the statements below say where they rely on a file handle being a
  `*os.File` that is not nil.
* A nil dereference is `Except.error Panic.nilDeref`.
* A method with a pointer receiver takes the struct and returns the new struct.
* Go `int` is `Int`; no arithmetic is done on it, only comparison and printing.
* Strings are Lean strings; `'\n'` is one byte in UTF-8 and occurs in no other
  character's encoding, so counting the character counts the byte.
-/

set_option autoImplicit false
set_option linter.dupNamespace false

namespace logger

/-! ## Values of the standard library -/

/-- Go `error` that is not nil. -/
structure Error where
  msg : String
  deriving DecidableEq, Repr

/-- Go `*os.File` that is not nil: the identity of the handle and the name it was opened with. -/
structure File where
  fd : Nat
  name : String
  deriving DecidableEq, Repr

/-- Go `(*os.File).Name`. -/
def File.Name (f : File) : String := f.name

/-- Go `io.Writer` that is not nil and holds no nil pointer: a file handle, or a value of any
other type whose `Write` returns. -/
inductive Writer where
  | file (f : File)
  | other (id : Nat)
  deriving DecidableEq, Repr

/-- Go `any`, as far as printing tells values apart: values of kind string, integers,
booleans, the nil interface, and any other value that is not of kind string, given by
its default (`%v`) rendering. -/
inductive Value where
  | str (s : String)
  | int (n : Int)
  | bool (b : Bool)
  | nil
  | other (text : String)
  deriving DecidableEq, Repr

/-- A nil dereference, the only run-time panic the package can raise by itself. -/
inductive Panic where
  | nilDeref
  deriving DecidableEq, Repr

/-- One call of `Write` on a writer: the destination, the bytes handed over, the error returned. -/
structure WriteCall where
  dst : Writer
  data : String
  err : Option Error
  deriving DecidableEq, Repr

/-- One call of `os.OpenFile`: its three arguments and the error returned. -/
structure OpenCall where
  name : String
  flag : Nat
  perm : Nat
  err : Option Error
  deriving DecidableEq, Repr

/-- The observable world: the `Write` calls and the `os.OpenFile` calls so far (oldest
first), the handles that were closed, and the next unused handle identity. -/
structure World where
  writes : List WriteCall
  opens : List OpenCall
  closed : List File
  nextFd : Nat
  deriving DecidableEq, Repr

/-- What the program does not decide. `openErr n name` is the outcome of the `n`-th
`os.OpenFile` call when it opens `name`, `writeErr n dst` the outcome of the `n`-th `Write`
call when it writes to `dst` (`none` is success). `Sprintf` is `fmt.Sprintf` on a format
supplied by the caller. `timeStamp` and `fileLine` are the date/time and the `file:line: `
parts of a `log` header. -/
structure Env where
  openErr : Nat → String → Option Error
  writeErr : Nat → Writer → Option Error
  Sprintf : String → List Value → String
  timeStamp : Nat → Int → String
  fileLine : Nat → Int → Int → String

/-- Go `os.Stdout`. -/
def Stdout : File := ⟨1, "/dev/stdout"⟩

/-- Go `io.Writer.Write` of a writer whose `Write` returns: the call is recorded with the
error the environment gives it. -/
def Writer.Write (env : Env) (w : World) (dst : Writer) (p : String) : Option Error × World :=
  let err := env.writeErr w.writes.length dst
  (err, { w with writes := w.writes ++ [⟨dst, p, err⟩] })

/-- Go `os.OpenFile`: on success a handle with a new identity and the given name. -/
def OpenFile (env : Env) (w : World) (name : String) (flag perm : Nat) : Except Error File × World :=
  match env.openErr w.opens.length name with
  | some err => (.error err, { w with opens := w.opens ++ [⟨name, flag, perm, some err⟩] })
  | none =>
    (.ok ⟨w.nextFd, name⟩,
      { w with opens := w.opens ++ [⟨name, flag, perm, none⟩], nextFd := w.nextFd + 1 })

/-! ## `fmt` -/

/-- Whether `reflect.TypeOf(arg).Kind() == reflect.String` for a non-nil `arg`. -/
def Value.isString : Value → Bool
  | .str _ => true
  | _ => false

/-- Go `printArg(arg, 'v')`: the default rendering of one value. -/
def Value.render : Value → String
  | .str s => s
  | .int n => toString n
  | .bool b => if b then "true" else "false"
  | .nil => "<nil>"
  | .other text => text

/-- Go `(*pp).doPrint`, the loop over the operands from `argNum` on: a space is added between
two operands when neither is a string. -/
def doPrint (prevString : Bool) (argNum : Nat) : List Value → String
  | [] => ""
  | arg :: rest =>
    let isString := arg.isString
    (if 0 < argNum && !isString && !prevString then " " else "") ++ arg.render ++
      doPrint isString (argNum + 1) rest

/-- Go `fmt.Sprint`. -/
def Sprint (a : List Value) : String := doPrint false 0 a

/-- Go `fmt.Print`: `Sprint` of the operands, written to `os.Stdout` in one call. -/
def Print (env : Env) (w : World) (a : List Value) : Option Error × World :=
  Writer.Write env w (.file Stdout) (Sprint a)

/-! ## `log.Logger` -/

def Ldate : Int := 1
def Ltime : Int := 2
def Lmicroseconds : Int := 4
def Llongfile : Int := 8
def Lshortfile : Int := 16
def LUTC : Int := 32
def Lmsgprefix : Int := 64

/-- Go `log.Logger`: the destination, the line prefix and the flags. -/
structure StdLogger where
  out : Option Writer
  pre : String
  flag : Int
  deriving DecidableEq, Repr

/-- Go `log.New`. -/
def StdLogger.New (out : Option Writer) (pre : String) (flag : Int) : StdLogger :=
  ⟨out, pre, flag⟩

/-- Go `(*log.Logger).SetOutput`. -/
def StdLogger.SetOutput (lg : StdLogger) (w : Option Writer) : StdLogger :=
  { lg with out := w }

/-- Go `log.formatHeader`: the prefix (before the header unless `Lmsgprefix`), the date and
time when a time flag is set, the source position when a file flag is set, the prefix (after
the header when `Lmsgprefix`). -/
def formatHeader (env : Env) (tick : Nat) (pre : String) (flag : Int) (calldepth : Int) : String :=
  (if Int.land flag Lmsgprefix = 0 then pre else "") ++
  (if Int.land flag (Int.lor Ldate (Int.lor Ltime Lmicroseconds)) ≠ 0
    then env.timeStamp tick flag else "") ++
  (if Int.land flag (Int.lor Lshortfile Llongfile) ≠ 0
    then env.fileLine tick flag calldepth else "") ++
  (if Int.land flag Lmsgprefix ≠ 0 then pre else "")

/-- Go `(*log.Logger).Output`: header, then `s`, then a newline when the buffer does not end
in one, handed to the destination in a single `Write`; the error of that `Write` is returned.
A nil destination panics. -/
def StdLogger.Output (env : Env) (w : World) (lg : StdLogger) (calldepth : Int) (s : String) :
    Except Panic (Option Error × World) :=
  let buf := formatHeader env w.writes.length lg.pre lg.flag calldepth ++ s
  let buf := if buf.data.getLast? = some '\n' then buf else buf ++ "\n"
  match lg.out with
  | none => .error .nilDeref
  | some dst => .ok (Writer.Write env w dst buf)

/-! ## The package `logger` -/

def INFO : Int := 0
def NOTICE : Int := 1
def WARN : Int := 2
def ERR : Int := 3
def CRIT : Int := 4
def EMERG : Int := 5

/-- Go `os.O_WRONLY`, `os.O_APPEND`, `os.O_CREATE` (their values on Linux). -/
def O_WRONLY : Nat := 0x1
def O_APPEND : Nat := 0x400
def O_CREATE : Nat := 0x40

def fileFlag : Nat := O_WRONLY ||| O_APPEND ||| O_CREATE
def fileMode : Nat := 0o666

/-- The map `levelsStr`, as its list of entries. -/
def levelsStr : List (Int × String) :=
  [ (INFO, "[\x1b[1;42;37mINFO\x1b[0m]"),
    (NOTICE, "[\x1b[1;42;37mNOTICE\x1b[0m]"),
    (WARN, "[\x1b[1;43;37mWARN\x1b[0m]"),
    (ERR, "[\x1b[1;41;37mERR\x1b[0m]"),
    (CRIT, "[\x1b[1;45;37mCRIT\x1b[0m]"),
    (EMERG, "[\x1b[1;45;37mEMERG\x1b[0m]") ]

structure InitArgs where
  Writer : Option Writer
  Filename : String
  Prefix : String
  Flags : Int
  LogLevel : Int
  deriving DecidableEq, Repr

structure Logger where
  Logger : Option StdLogger
  LogLevel : Int
  writer : Option Writer
  deriving DecidableEq, Repr

/-- Go `New`. The pair is the Go result `(*Logger, error)`; `args` is a pointer and may be
nil, and reading a field of it then panics. -/
def New (env : Env) (w : World) (args : Option InitArgs) :
    Except Panic ((Option Logger × Option Error) × World) :=
  match args with
  | none => .error .nilDeref
  | some args =>
    let self : Logger := { Logger := none, LogLevel := args.LogLevel, writer := none }
    let opened : Except Error (Option Writer) × World :=
      match args.Writer with
      | none =>
        match OpenFile env w args.Filename fileFlag fileMode with
        | (.error err, w1) => (.error err, w1)
        | (.ok file, w1) => (.ok (some (.file file)), w1)
      | some writer => (.ok (some writer), w)
    match opened with
    | (.error err, w1) => .ok ((none, some err), w1)
    | (.ok writer, w1) =>
      .ok ((some { self with
              writer := writer,
              Logger := some (StdLogger.New writer args.Prefix args.Flags) }, none), w1)

/-- Go `(*Logger).GetWriter`. -/
def Logger.GetWriter (l : logger.Logger) : Option Writer := l.writer

/-- Go `(*Logger).SetWriter`: `l.Logger.SetOutput` on a nil `l.Logger` panics. -/
def Logger.SetWriter (l : logger.Logger) (writer : Option Writer) : Except Panic logger.Logger :=
  let l1 := { l with writer := writer }
  match l1.Logger with
  | none => .error .nilDeref
  | some lg => .ok { l1 with Logger := some (lg.SetOutput writer) }

/-- Go `(*Logger).FileRotate`. The pair is the Go result `(*os.File, error)`. The type
assertion holds exactly of a file handle, which is not nil, so `file.Name()` returns. -/
def Logger.FileRotate (env : Env) (w : World) (l : logger.Logger) :
    Except Panic ((Option File × Option Error) × World × logger.Logger) :=
  match l.writer with
  | some (.file file) =>
    match OpenFile env w file.Name fileFlag fileMode with
    | (.error err, w1) => .ok ((none, some err), w1, l)
    | (.ok fileNew, w1) =>
      match l.SetWriter (some (.file fileNew)) with
      | .error p => .error p
      | .ok l1 => .ok ((some file, none), w1, l1)
  | _ => .ok ((none, none), w, l)

/-- Go `(*Logger).log`. `fmt.Sprintf("[level %d]", level)` and `fmt.Sprintf("%s%s\n", ..)`
have constant formats and are written out. The results of `Output` and `Print` are dropped,
as in the source. -/
def Logger.log (env : Env) (w : World) (l : logger.Logger) (calldepth : Int) (level : Int)
    (v : List Value) : Except Panic World :=
  if level < l.LogLevel then
    .ok w
  else
    let levelStr :=
      match levelsStr.lookup level with
      | some str => str
      | none => "[level " ++ toString level ++ "]"
    let s := levelStr ++ Sprint v ++ "\n"
    match l.Logger with
    | some lg =>
      match lg.Output env w calldepth s with
      | .error p => .error p
      | .ok (_, w1) => .ok w1
    | none => .ok (Print env w [.str s]).2

/-- Go `(*Logger).logf`: as `log`, the body being `fmt.Sprintf(format, v...)`. -/
def Logger.logf (env : Env) (w : World) (l : logger.Logger) (calldepth : Int) (level : Int)
    (format : String) (v : List Value) : Except Panic World :=
  if level < l.LogLevel then
    .ok w
  else
    let levelStr :=
      match levelsStr.lookup level with
      | some str => str
      | none => "[level " ++ toString level ++ "]"
    let s := levelStr ++ env.Sprintf format v ++ "\n"
    match l.Logger with
    | some lg =>
      match lg.Output env w calldepth s with
      | .error p => .error p
      | .ok (_, w1) => .ok w1
    | none => .ok (Print env w [.str s]).2

def Logger.Log (env : Env) (w : World) (l : logger.Logger) (level : Int) (v : List Value) :
    Except Panic World :=
  l.log env w 3 level v

def Logger.Logf (env : Env) (w : World) (l : logger.Logger) (level : Int) (format : String)
    (v : List Value) : Except Panic World :=
  l.logf env w 3 level format v

def Logger.Info (env : Env) (w : World) (l : logger.Logger) (v : List Value) : Except Panic World :=
  l.log env w 3 INFO v

def Logger.Infof (env : Env) (w : World) (l : logger.Logger) (format : String) (v : List Value) :
    Except Panic World :=
  l.logf env w 3 INFO format v

def Logger.Notice (env : Env) (w : World) (l : logger.Logger) (v : List Value) : Except Panic World :=
  l.log env w 3 NOTICE v

def Logger.Noticef (env : Env) (w : World) (l : logger.Logger) (format : String) (v : List Value) :
    Except Panic World :=
  l.logf env w 3 NOTICE format v

def Logger.Warn (env : Env) (w : World) (l : logger.Logger) (v : List Value) : Except Panic World :=
  l.log env w 3 WARN v

def Logger.Warnf (env : Env) (w : World) (l : logger.Logger) (format : String) (v : List Value) :
    Except Panic World :=
  l.logf env w 3 WARN format v

def Logger.Err (env : Env) (w : World) (l : logger.Logger) (v : List Value) : Except Panic World :=
  l.log env w 3 ERR v

def Logger.Errf (env : Env) (w : World) (l : logger.Logger) (format : String) (v : List Value) :
    Except Panic World :=
  l.logf env w 3 ERR format v

def Logger.Crit (env : Env) (w : World) (l : logger.Logger) (v : List Value) : Except Panic World :=
  l.log env w 3 CRIT v

def Logger.Critf (env : Env) (w : World) (l : logger.Logger) (format : String) (v : List Value) :
    Except Panic World :=
  l.logf env w 3 CRIT format v

def Logger.Emerg (env : Env) (w : World) (l : logger.Logger) (v : List Value) : Except Panic World :=
  l.log env w 3 EMERG v

def Logger.Emergf (env : Env) (w : World) (l : logger.Logger) (format : String) (v : List Value) :
    Except Panic World :=
  l.logf env w 3 EMERG format v

/-! ## Auxiliary definitions for the statements -/

/-- The label `log` and `logf` resolve for a level: the statements
`levelStr, ok := levelsStr[level]; if !ok { levelStr = fmt.Sprintf("[level %d]", level) }`
that both functions contain. -/
def levelStr (level : Int) : String :=
  match levelsStr.lookup level with
  | some str => str
  | none => "[level " ++ toString level ++ "]"

/-- The last statement of `log` and of `logf`: the composed string goes through the
formatter when there is one, to standard output otherwise. -/
def Logger.emit (env : Env) (w : World) (l : logger.Logger) (calldepth : Int) (s : String) :
    Except Panic World :=
  match l.Logger with
  | some lg =>
    match lg.Output env w calldepth s with
    | .error p => .error p
    | .ok (_, w1) => .ok w1
  | none => .ok (Print env w [.str s]).2

/-- The world after one more `Write` call of `data` on `dst`. -/
def World.wrote (env : Env) (w : World) (dst : Writer) (data : String) : World :=
  { w with writes := w.writes ++ [⟨dst, data, env.writeErr w.writes.length dst⟩] }

/-- The number of newline bytes of a string. -/
def newlines (s : String) : Nat := s.data.count '\n'

/-- Whether the last byte of a string is a newline. -/
def endsInNewline (s : String) : Prop := s.data.getLast? = some '\n'

/-- A stand-in for `fmt.Sprintf` in examples: it agrees with the library on formats made of
plain text and the verbs `%d`, `%s`, `%v`, each with an operand of the matching kind, and
is not meant to agree with it elsewhere. -/
def sprintfPlain : List Char → List Value → String
  | [], _ => ""
  | '%' :: _ :: cs, arg :: rest => arg.render ++ sprintfPlain cs rest
  | c :: cs, a => c.toString ++ sprintfPlain cs a

/-- An environment in which every open and every write succeeds. -/
def envOk : Env where
  openErr := fun _ _ => none
  writeErr := fun _ _ => none
  Sprintf := fun format a => sprintfPlain format.data a
  timeStamp := fun _ _ => "2009/11/10 23:00:00 "
  fileLine := fun _ _ _ => "main.go:7: "

/-- An environment in which every open fails with `ENOENT` and every write with `EIO`. -/
def envFail : Env where
  openErr := fun _ _ => some ⟨"no such file or directory"⟩
  writeErr := fun _ _ => some ⟨"input/output error"⟩
  Sprintf := fun format a => sprintfPlain format.data a
  timeStamp := fun _ _ => "2009/11/10 23:00:00 "
  fileLine := fun _ _ _ => "main.go:7: "

/-- A world in which nothing was written or opened yet; handles 0, 1, 2 are the standard
streams. -/
def world0 : World := ⟨[], [], [], 3⟩

/-! ## Sequences of calls on one Logger -/

/-- One call on a Logger from outside the package: `SetWriter`, `FileRotate`, `Log` or
`Logf`, with its arguments. The twelve methods named after a level are `Log` and `Logf` at
that level. -/
inductive Call where
  | SetWriter (writer : Option Writer)
  | FileRotate
  | Log (level : Int) (v : List Value)
  | Logf (level : Int) (format : String) (v : List Value)
  deriving DecidableEq, Repr

/-- The effect of one call on the world and on the Logger; the results of the call are
dropped. -/
def Call.run (env : Env) (w : World) (l : logger.Logger) :
    Call → Except Panic (World × logger.Logger)
  | .SetWriter writer =>
    match l.SetWriter writer with
    | .error p => .error p
    | .ok l1 => .ok (w, l1)
  | .FileRotate =>
    match l.FileRotate env w with
    | .error p => .error p
    | .ok (_, w1, l1) => .ok (w1, l1)
  | .Log level v =>
    match l.Log env w level v with
    | .error p => .error p
    | .ok w1 => .ok (w1, l)
  | .Logf level format v =>
    match l.Logf env w level format v with
    | .error p => .error p
    | .ok w1 => .ok (w1, l)

/-- The calls of a list one after the other; a panic ends the run. -/
def runCalls (env : Env) : World → logger.Logger → List Call → Except Panic (World × logger.Logger)
  | w, l, [] => .ok (w, l)
  | w, l, c :: cs =>
    match c.run env w l with
    | .error p => .error p
    | .ok (w1, l1) => runCalls env w1 l1 cs

/-- The formatter of the Logger exists and writes to the sink of the Logger. -/
def Logger.agrees (l : logger.Logger) : Prop :=
  ∃ lg, l.Logger = some lg ∧ lg.out = l.writer

/-! ## The message body in the words of the specification and of `fmt` -/

/-- The concatenation of the default renderings of the operands, nothing in between. -/
def plainConcat : List Value → String
  | [] => ""
  | a :: rest => a.render ++ plainConcat rest

/-- What `fmt` documents for `Sprint` between two neighbours: a space when neither is a
string. -/
def separator (a b : Value) : String :=
  if !a.isString && !b.isString then " " else ""

/-- The default renderings of the operands with the documented separator between
neighbours. -/
def spacedConcat : List Value → String
  | [] => ""
  | [a] => a.render
  | a :: b :: rest => a.render ++ separator a b ++ spacedConcat (b :: rest)

end logger

namespace logger

/-! ## Lemmas on strings -/

theorem endsInNewline_append_newline (s : String) : endsInNewline (s ++ "\n") := by
  simp [endsInNewline]

theorem endsInNewline_append (h s : String) (hs : endsInNewline s) : endsInNewline (h ++ s) := by
  unfold endsInNewline at *
  simp [hs]

theorem newlines_append (s t : String) : newlines (s ++ t) = newlines s + newlines t := by
  simp [newlines]

theorem digitChar_ne_newline (d : Nat) : Nat.digitChar d ≠ '\n' := by
  by_cases h : d < 16
  · interval_cases d <;> decide
  · have hk : ∀ k, k < 16 → (d = k) = False := by
      intro k hk
      simp only [eq_iff_iff, iff_false]
      omega
    unfold Nat.digitChar
    simp only [hk, Nat.reduceLT, if_false]
    decide

theorem toDigitsCore_no_newline (fuel n : Nat) (ds : List Char) (hds : '\n' ∉ ds) :
    '\n' ∉ Nat.toDigitsCore 10 fuel n ds := by
  induction fuel generalizing n ds with
  | zero => simpa [Nat.toDigitsCore] using hds
  | succ fuel ih =>
    have hcons : '\n' ∉ Nat.digitChar (n % 10) :: ds := by
      simp only [List.mem_cons, not_or]
      exact ⟨fun h => digitChar_ne_newline _ h.symm, hds⟩
    rw [Nat.toDigitsCore.eq_def]
    dsimp only
    split
    · exact hcons
    · exact ih _ _ hcons

theorem newlines_natRepr (n : Nat) : newlines (toString n) = 0 := by
  have h : '\n' ∉ Nat.toDigits 10 n := toDigitsCore_no_newline _ _ _ (by simp)
  simpa [newlines, toString, Nat.repr, List.asString, List.count_eq_zero] using h

theorem newlines_intRepr (n : Int) : newlines (toString n) = 0 := by
  cases n with
  | ofNat m => exact newlines_natRepr m
  | negSucc m =>
    show newlines ("-" ++ toString (Nat.succ m)) = 0
    rw [newlines_append, newlines_natRepr]
    decide

/-! ## Lemmas on the label -/

theorem levelStr_of_known (level : Int) (h : 0 ≤ level ∧ level ≤ 5) :
    levelsStr.lookup level = some (levelStr level) ∧ newlines (levelStr level) = 0 := by
  obtain ⟨h0, h5⟩ := h
  have hcases : level = 0 ∨ level = 1 ∨ level = 2 ∨ level = 3 ∨ level = 4 ∨ level = 5 := by
    omega
  rcases hcases with h | h | h | h | h | h <;> subst h <;> exact ⟨rfl, by decide⟩

theorem levelStr_of_unknown (level : Int) (h : level < 0 ∨ 5 < level) :
    levelsStr.lookup level = none ∧ levelStr level = "[level " ++ toString level ++ "]" := by
  have hnone : levelsStr.lookup level = none := by
    have h0 : (level == INFO) = false := by
      simp only [INFO, beq_eq_false_iff_ne, ne_eq]; omega
    have h1 : (level == NOTICE) = false := by
      simp only [NOTICE, beq_eq_false_iff_ne, ne_eq]; omega
    have h2 : (level == WARN) = false := by
      simp only [WARN, beq_eq_false_iff_ne, ne_eq]; omega
    have h3 : (level == ERR) = false := by
      simp only [ERR, beq_eq_false_iff_ne, ne_eq]; omega
    have h4 : (level == CRIT) = false := by
      simp only [CRIT, beq_eq_false_iff_ne, ne_eq]; omega
    have h5 : (level == EMERG) = false := by
      simp only [EMERG, beq_eq_false_iff_ne, ne_eq]; omega
    simp only [levelsStr, List.lookup, h0, h1, h2, h3, h4, h5]
  refine ⟨hnone, ?_⟩
  unfold levelStr
  rw [hnone]

theorem newlines_levelStr (level : Int) : newlines (levelStr level) = 0 := by
  by_cases h : 0 ≤ level ∧ level ≤ 5
  · exact (levelStr_of_known level h).2
  · have hu : level < 0 ∨ 5 < level := by omega
    rw [(levelStr_of_unknown level hu).2, newlines_append, newlines_append, newlines_intRepr]
    decide

/-! ## Lemmas on the emission path -/

theorem log_eq (env : Env) (w : World) (l : Logger) (calldepth level : Int) (v : List Value) :
    l.log env w calldepth level v =
      if level < l.LogLevel then .ok w
      else l.emit env w calldepth (levelStr level ++ Sprint v ++ "\n") := rfl

theorem logf_eq (env : Env) (w : World) (l : Logger) (calldepth level : Int) (format : String)
    (v : List Value) :
    l.logf env w calldepth level format v =
      if level < l.LogLevel then .ok w
      else l.emit env w calldepth (levelStr level ++ env.Sprintf format v ++ "\n") := rfl

theorem emit_formatter (env : Env) (w : World) (l : Logger) (calldepth : Int) (s : String)
    (lg : StdLogger) (dst : Writer) (hl : l.Logger = some lg) (ho : lg.out = some dst)
    (hs : endsInNewline s) :
    l.emit env w calldepth s =
      .ok (w.wrote env dst (formatHeader env w.writes.length lg.pre lg.flag calldepth ++ s)) := by
  have hbuf := endsInNewline_append
    (formatHeader env w.writes.length lg.pre lg.flag calldepth) s hs
  unfold endsInNewline at hbuf
  simp only [Logger.emit, hl, StdLogger.Output, ho, hbuf, if_true, Writer.Write, World.wrote]

theorem formatHeader_plain (env : Env) (tick : Nat) (calldepth : Int) :
    formatHeader env tick "" 0 calldepth = "" := by
  have h1 : Int.land 0 Lmsgprefix = 0 := by decide
  have h2 : Int.land 0 (Int.lor Ldate (Int.lor Ltime Lmicroseconds)) = 0 := by decide
  have h3 : Int.land 0 (Int.lor Lshortfile Llongfile) = 0 := by decide
  simp only [formatHeader, h1, h2, h3, ne_eq, not_true_eq_false, if_true, if_false]
  decide

/-- What a successful `New` returns: formatter and sink hold the same writer. -/
theorem New_shape (env : Env) (w0 w1 : World) (args : InitArgs) (l : Logger)
    (h : New env w0 (some args) = .ok ((some l, none), w1)) :
    ∃ dst, l = ⟨some ⟨some dst, args.Prefix, args.Flags⟩, args.LogLevel, some dst⟩ := by
  unfold New at h
  cases hw : args.Writer with
  | some writer =>
    simp only [hw] at h
    injection h with h
    simp only [Prod.mk.injEq, Option.some.injEq, and_true] at h
    exact ⟨writer, h.1.symm⟩
  | none =>
    simp only [hw, OpenFile] at h
    cases ho : env.openErr w0.opens.length args.Filename with
    | some err => simp [ho] at h
    | none =>
      simp only [ho] at h
      injection h with h
      simp only [Prod.mk.injEq, Option.some.injEq, and_true] at h
      exact ⟨_, h.1.symm⟩

end logger

namespace logger

/-! ## Filtering and the composed line -/

/-- C1. A call of `Log` or `Logf` whose level is below the threshold of the Logger does
nothing: the world after the call is the world before it, so no `Write` call was made on the
sink or on standard output and no file was opened. The call takes the Logger by value and
returns none, so sink and threshold are as before. This holds for every Logger value, also
one without a formatter. -/
theorem filtered_call_is_noop (env : Env) (w : World) (l : Logger) (level : Int)
    (format : String) (v : List Value) (h : level < l.LogLevel) :
    l.Log env w level v = .ok w ∧ l.Logf env w level format v = .ok w := by
  simp only [Logger.Log, Logger.Logf, log_eq, logf_eq, h, if_true, and_self]

/-- C1, at threshold WARN: `Info("a")` and `Infof("%s", "a")` leave the world untouched. -/
theorem filtered_call_is_noop_witness :
    Logger.Log envOk world0 ⟨some ⟨some (.other 0), "", 0⟩, WARN, some (.other 0)⟩ INFO
        [.str "a"] = .ok world0 ∧
    Logger.Logf envOk world0 ⟨some ⟨some (.other 0), "", 0⟩, WARN, some (.other 0)⟩ INFO
        "%s" [.str "a"] = .ok world0 :=
  filtered_call_is_noop envOk world0 ⟨some ⟨some (.other 0), "", 0⟩, WARN, some (.other 0)⟩
    INFO "%s" [.str "a"] (by decide)

/-- C2. For a Logger returned by `New` from arguments with an empty prefix and flags 0, a
call of `Log` or `Logf` at a level not below the threshold, in any later world, makes exactly
one `Write` call, on the sink, and the bytes are the label of the level, then the body, then
a newline; the body is `fmt.Sprint` of the operands for `Log` and `fmt.Sprintf` of the format
and the operands for `Logf`. -/
theorem emission_composition (env : Env) (w0 w1 w : World) (args : InitArgs) (l : Logger)
    (level : Int) (format : String) (v : List Value)
    (hpre : args.Prefix = "") (hflags : args.Flags = 0)
    (hnew : New env w0 (some args) = .ok ((some l, none), w1))
    (hlevel : l.LogLevel ≤ level) :
    ∃ dst, l.GetWriter = some dst ∧
      l.Log env w level v = .ok (w.wrote env dst (levelStr level ++ Sprint v ++ "\n")) ∧
      l.Logf env w level format v =
        .ok (w.wrote env dst (levelStr level ++ env.Sprintf format v ++ "\n")) := by
  obtain ⟨dst, rfl⟩ := New_shape env w0 w1 args _ hnew
  have hnot : ¬ level < args.LogLevel := not_lt.mpr hlevel
  refine ⟨dst, rfl, ?_, ?_⟩
  · rw [Logger.Log, log_eq, if_neg hnot,
      emit_formatter env w _ 3 _ ⟨some dst, args.Prefix, args.Flags⟩ dst rfl rfl
        (endsInNewline_append_newline _)]
    simp only [hpre, hflags, formatHeader_plain, String.empty_append]
  · rw [Logger.Logf, logf_eq, if_neg hnot,
      emit_formatter env w _ 3 _ ⟨some dst, args.Prefix, args.Flags⟩ dst rfl rfl
        (endsInNewline_append_newline _)]
    simp only [hpre, hflags, formatHeader_plain, String.empty_append]

/-- C2, on the example of the specification: a Logger on the file `/tmp/x.log` with threshold
WARN; `Info("a")` writes nothing and `Warnf("count=%d", 3)` writes exactly the WARN label,
`count=3` and a newline to the opened handle. -/
theorem emission_composition_witness :
    (∃ dst, Logger.GetWriter
          ⟨some ⟨some (.file ⟨3, "/tmp/x.log"⟩), "", 0⟩, WARN, some (.file ⟨3, "/tmp/x.log"⟩)⟩
          = some dst ∧
        Logger.Log envOk ⟨[], [⟨"/tmp/x.log", 1089, 438, none⟩], [], 4⟩
          ⟨some ⟨some (.file ⟨3, "/tmp/x.log"⟩), "", 0⟩, WARN, some (.file ⟨3, "/tmp/x.log"⟩)⟩
          WARN [.int 3] =
          .ok (World.wrote envOk ⟨[], [⟨"/tmp/x.log", 1089, 438, none⟩], [], 4⟩ dst
            (levelStr WARN ++ Sprint [.int 3] ++ "\n")) ∧
        Logger.Logf envOk ⟨[], [⟨"/tmp/x.log", 1089, 438, none⟩], [], 4⟩
          ⟨some ⟨some (.file ⟨3, "/tmp/x.log"⟩), "", 0⟩, WARN, some (.file ⟨3, "/tmp/x.log"⟩)⟩
          WARN "count=%d" [.int 3] =
          .ok (World.wrote envOk ⟨[], [⟨"/tmp/x.log", 1089, 438, none⟩], [], 4⟩ dst
            (levelStr WARN ++ envOk.Sprintf "count=%d" [.int 3] ++ "\n"))) ∧
    Logger.Info envOk ⟨[], [⟨"/tmp/x.log", 1089, 438, none⟩], [], 4⟩
        ⟨some ⟨some (.file ⟨3, "/tmp/x.log"⟩), "", 0⟩, WARN, some (.file ⟨3, "/tmp/x.log"⟩)⟩
        [.str "a"] = .ok ⟨[], [⟨"/tmp/x.log", 1089, 438, none⟩], [], 4⟩ ∧
    Logger.Warnf envOk ⟨[], [⟨"/tmp/x.log", 1089, 438, none⟩], [], 4⟩
        ⟨some ⟨some (.file ⟨3, "/tmp/x.log"⟩), "", 0⟩, WARN, some (.file ⟨3, "/tmp/x.log"⟩)⟩
        "count=%d" [.int 3] =
      .ok ⟨[⟨.file ⟨3, "/tmp/x.log"⟩, "[\x1b[1;43;37mWARN\x1b[0m]count=3\n", none⟩],
        [⟨"/tmp/x.log", 1089, 438, none⟩], [], 4⟩ :=
  ⟨emission_composition envOk world0 ⟨[], [⟨"/tmp/x.log", 1089, 438, none⟩], [], 4⟩
      ⟨[], [⟨"/tmp/x.log", 1089, 438, none⟩], [], 4⟩ ⟨none, "/tmp/x.log", "", 0, WARN⟩
      ⟨some ⟨some (.file ⟨3, "/tmp/x.log"⟩), "", 0⟩, WARN, some (.file ⟨3, "/tmp/x.log"⟩)⟩
      WARN "count=%d" [.int 3] rfl rfl rfl (by decide),
   rfl, rfl⟩

end logger

namespace logger

/-- C3, as stated, fails: on a Logger with threshold INFO built by `New` on a writer,
`Log(INFO, "a\nb")` makes one `Write` call whose bytes hold two newlines, not one. -/
theorem one_line_counterexample :
    New envOk world0 (some ⟨some (.other 0), "", "", 0, INFO⟩) =
      .ok ((some ⟨some ⟨some (.other 0), "", 0⟩, INFO, some (.other 0)⟩, none), world0) ∧
    Logger.Log envOk world0 ⟨some ⟨some (.other 0), "", 0⟩, INFO, some (.other 0)⟩ INFO
        [.str "a\nb"] =
      .ok ⟨[⟨.other 0, "[\x1b[1;42;37mINFO\x1b[0m]a\nb\n", none⟩], [], [], 3⟩ ∧
    newlines "[\x1b[1;42;37mINFO\x1b[0m]a\nb\n" = 2 ∧
    ¬ newlines "[\x1b[1;42;37mINFO\x1b[0m]a\nb\n" = 1 :=
  ⟨rfl, rfl, by decide, by decide⟩

/-- C3, amended. For a Logger returned by `New`, a call of `Log` or `Logf` at a level not
below the threshold makes exactly one `Write` call, on the sink; its bytes are the header of
the formatter, the label, the body and a newline, they end in a newline, and they hold one
newline more than the header and the body together. So the call produces exactly one line
when neither the header nor the body contains a newline, and only then. -/
theorem emission_one_write (env : Env) (w0 w1 w : World) (args : InitArgs) (l : Logger)
    (level : Int) (format : String) (v : List Value)
    (hnew : New env w0 (some args) = .ok ((some l, none), w1))
    (hlevel : l.LogLevel ≤ level) :
    ∃ dst header, l.GetWriter = some dst ∧
      header = formatHeader env w.writes.length args.Prefix args.Flags 3 ∧
      l.Log env w level v =
        .ok (w.wrote env dst (header ++ (levelStr level ++ Sprint v ++ "\n"))) ∧
      endsInNewline (header ++ (levelStr level ++ Sprint v ++ "\n")) ∧
      newlines (header ++ (levelStr level ++ Sprint v ++ "\n")) =
        newlines header + newlines (Sprint v) + 1 ∧
      l.Logf env w level format v =
        .ok (w.wrote env dst (header ++ (levelStr level ++ env.Sprintf format v ++ "\n"))) ∧
      endsInNewline (header ++ (levelStr level ++ env.Sprintf format v ++ "\n")) ∧
      newlines (header ++ (levelStr level ++ env.Sprintf format v ++ "\n")) =
        newlines header + newlines (env.Sprintf format v) + 1 := by
  obtain ⟨dst, rfl⟩ := New_shape env w0 w1 args _ hnew
  have hnot : ¬ level < args.LogLevel := not_lt.mpr hlevel
  have hcount : ∀ header body : String,
      newlines (header ++ (levelStr level ++ body ++ "\n")) =
        newlines header + newlines body + 1 := by
    intro header body
    rw [newlines_append, newlines_append, newlines_append, newlines_levelStr]
    have h1 : newlines "\n" = 1 := by decide
    omega
  refine ⟨dst, _, rfl, rfl, ?_, ?_, hcount _ _, ?_, ?_, hcount _ _⟩
  · rw [Logger.Log, log_eq, if_neg hnot,
      emit_formatter env w _ 3 _ ⟨some dst, args.Prefix, args.Flags⟩ dst rfl rfl
        (endsInNewline_append_newline _)]
  · exact endsInNewline_append _ _ (endsInNewline_append_newline _)
  · rw [Logger.Logf, logf_eq, if_neg hnot,
      emit_formatter env w _ 3 _ ⟨some dst, args.Prefix, args.Flags⟩ dst rfl rfl
        (endsInNewline_append_newline _)]
  · exact endsInNewline_append _ _ (endsInNewline_append_newline _)

/-- C3, amended, on the example of the specification: threshold INFO, `Emerg("boom")` makes
one `Write` call whose bytes are the EMERG label, `boom` and the only newline. -/
theorem emission_one_write_witness :
    (∃ dst header,
      Logger.GetWriter ⟨some ⟨some (.other 0), "", 0⟩, INFO, some (.other 0)⟩ = some dst ∧
      header = formatHeader envOk world0.writes.length "" 0 3 ∧
      Logger.Log envOk world0 ⟨some ⟨some (.other 0), "", 0⟩, INFO, some (.other 0)⟩ EMERG
          [.str "boom"] =
        .ok (world0.wrote envOk dst (header ++ (levelStr EMERG ++ Sprint [.str "boom"] ++ "\n"))) ∧
      endsInNewline (header ++ (levelStr EMERG ++ Sprint [.str "boom"] ++ "\n")) ∧
      newlines (header ++ (levelStr EMERG ++ Sprint [.str "boom"] ++ "\n")) =
        newlines header + newlines (Sprint [.str "boom"]) + 1 ∧
      Logger.Logf envOk world0 ⟨some ⟨some (.other 0), "", 0⟩, INFO, some (.other 0)⟩ EMERG
          "boom" [] =
        .ok (world0.wrote envOk dst (header ++ (levelStr EMERG ++ envOk.Sprintf "boom" [] ++ "\n"))) ∧
      endsInNewline (header ++ (levelStr EMERG ++ envOk.Sprintf "boom" [] ++ "\n")) ∧
      newlines (header ++ (levelStr EMERG ++ envOk.Sprintf "boom" [] ++ "\n")) =
        newlines header + newlines (envOk.Sprintf "boom" []) + 1) ∧
    Logger.Emerg envOk world0 ⟨some ⟨some (.other 0), "", 0⟩, INFO, some (.other 0)⟩
        [.str "boom"] =
      .ok ⟨[⟨.other 0, "[\x1b[1;45;37mEMERG\x1b[0m]boom\n", none⟩], [], [], 3⟩ ∧
    newlines "[\x1b[1;45;37mEMERG\x1b[0m]boom\n" = 1 :=
  ⟨emission_one_write envOk world0 world0 world0 ⟨some (.other 0), "", "", 0, INFO⟩
      ⟨some ⟨some (.other 0), "", 0⟩, INFO, some (.other 0)⟩ EMERG "boom" [.str "boom"]
      rfl (by decide),
   rfl, by decide⟩

/-! ## The labels -/

/-- C4. The six known levels resolve to their fixed markers, byte for byte; the level
constants are 0 to 5 in the order INFO, NOTICE, WARN, ERR, CRIT, EMERG; and `log` and `logf`
compose their line from the same label `levelStr level` for the same level. -/
theorem level_labels :
    (levelStr INFO = "[\x1b[1;42;37mINFO\x1b[0m]" ∧
      levelStr NOTICE = "[\x1b[1;42;37mNOTICE\x1b[0m]" ∧
      levelStr WARN = "[\x1b[1;43;37mWARN\x1b[0m]" ∧
      levelStr ERR = "[\x1b[1;41;37mERR\x1b[0m]" ∧
      levelStr CRIT = "[\x1b[1;45;37mCRIT\x1b[0m]" ∧
      levelStr EMERG = "[\x1b[1;45;37mEMERG\x1b[0m]") ∧
    (INFO = 0 ∧ NOTICE = 1 ∧ WARN = 2 ∧ ERR = 3 ∧ CRIT = 4 ∧ EMERG = 5) ∧
    (INFO < NOTICE ∧ NOTICE < WARN ∧ WARN < ERR ∧ ERR < CRIT ∧ CRIT < EMERG) ∧
    (∀ (env : Env) (w : World) (l : Logger) (calldepth level : Int) (format : String)
        (v : List Value),
      l.log env w calldepth level v =
        (if level < l.LogLevel then .ok w
          else l.emit env w calldepth (levelStr level ++ Sprint v ++ "\n")) ∧
      l.logf env w calldepth level format v =
        (if level < l.LogLevel then .ok w
          else l.emit env w calldepth (levelStr level ++ env.Sprintf format v ++ "\n"))) := by
  refine ⟨by decide, by decide, by decide, ?_⟩
  intro env w l calldepth level format v
  exact ⟨log_eq env w l calldepth level v, logf_eq env w l calldepth level format v⟩

/-- C5. Label resolution is total and never empty, and a level outside 0..5, negative ones
included, resolves to `[level `, the decimal digits of the level (with a minus sign when it
is negative), `]`. -/
theorem label_total (n : Int) :
    levelStr n ≠ "" ∧ (n < 0 ∨ 5 < n → levelStr n = "[level " ++ toString n ++ "]") := by
  refine ⟨?_, fun h => (levelStr_of_unknown n h).2⟩
  by_cases h : 0 ≤ n ∧ n ≤ 5
  · obtain ⟨h0, h5⟩ := h
    have hcases : n = 0 ∨ n = 1 ∨ n = 2 ∨ n = 3 ∨ n = 4 ∨ n = 5 := by omega
    rcases hcases with h | h | h | h | h | h <;> subst h <;> decide
  · have hu : n < 0 ∨ 5 < n := by omega
    rw [(levelStr_of_unknown n hu).2]
    intro hempty
    have hdata := congrArg String.length hempty
    simp only [String.length_append] at hdata
    have h1 : "[level ".length = 7 := by decide
    have h2 : "".length = 0 := by decide
    omega

/-- C5, at 7 and at -1. -/
theorem label_total_witness :
    (levelStr 7 ≠ "" ∧ levelStr 7 = "[level " ++ toString (7 : Int) ++ "]") ∧
    (levelStr (-1) ≠ "" ∧ levelStr (-1) = "[level " ++ toString (-1 : Int) ++ "]") ∧
    levelStr 7 = "[level 7]" ∧ levelStr (-1) = "[level -1]" :=
  ⟨⟨(label_total 7).1, (label_total 7).2 (by decide)⟩,
   ⟨(label_total (-1)).1, (label_total (-1)).2 (by decide)⟩, by decide, by decide⟩

end logger

namespace logger

/-! ## Construction -/

/-- C6. When the arguments carry a writer, `New` succeeds whatever the file name is, the
world after the call is the world before it (no file was opened), `GetWriter` on the result
returns that writer, and the threshold of the result is `args.LogLevel`. -/
theorem new_with_writer (env : Env) (w : World) (args : InitArgs) (writer : Writer)
    (h : args.Writer = some writer) :
    ∃ l, New env w (some args) = .ok ((some l, none), w) ∧
      l.GetWriter = some writer ∧ l.LogLevel = args.LogLevel := by
  refine ⟨⟨some (StdLogger.New (some writer) args.Prefix args.Flags), args.LogLevel,
    some writer⟩, ?_, rfl, rfl⟩
  simp only [New, h]

/-- C6, where every open would fail: the writer is taken and the file name is not opened. -/
theorem new_with_writer_witness :
    ∃ l, New envFail world0 (some ⟨some (.other 7), "/no/such/dir/x.log", "p ", 3, ERR⟩) =
        .ok ((some l, none), world0) ∧
      l.GetWriter = some (.other 7) ∧
      l.LogLevel = (⟨some (.other 7), "/no/such/dir/x.log", "p ", 3, ERR⟩ : InitArgs).LogLevel :=
  new_with_writer envFail world0 ⟨some (.other 7), "/no/such/dir/x.log", "p ", 3, ERR⟩
    (.other 7) rfl

/-- C7. When the arguments carry no writer, `New` makes one `os.OpenFile` call on
`args.Filename` with the flags write-only, append, create and the mode 0666. When that call
fails, `New` returns no Logger and the error of the call; when it succeeds, `New` returns a
Logger and no error, and the sink of the Logger is the handle the call returned. So `New`
fails exactly when the open fails. -/
theorem new_open_file (env : Env) (w : World) (args : InitArgs) (h : args.Writer = none) :
    match OpenFile env w args.Filename (O_WRONLY ||| O_APPEND ||| O_CREATE) 0o666 with
    | (.error err, w1) => New env w (some args) = .ok ((none, some err), w1)
    | (.ok file, w1) =>
      ∃ l, New env w (some args) = .ok ((some l, none), w1) ∧
        l.GetWriter = some (.file file) := by
  cases ho : env.openErr w.opens.length args.Filename with
  | some err => simp only [New, h, OpenFile, ho, fileFlag, fileMode]
  | none =>
    simp only [New, h, OpenFile, ho, fileFlag, fileMode]
    exact ⟨_, rfl, rfl⟩

/-- C7, where the open fails (no Logger, the error of the open) and where it succeeds (the
sink is the new handle 3 on `/tmp/x.log`). -/
theorem new_open_file_witness :
    (match OpenFile envFail world0 "/no/such/dir/x.log" (O_WRONLY ||| O_APPEND ||| O_CREATE)
        0o666 with
    | (.error err, w1) =>
      New envFail world0 (some ⟨none, "/no/such/dir/x.log", "", 0, INFO⟩) =
        .ok ((none, some err), w1)
    | (.ok file, w1) =>
      ∃ l, New envFail world0 (some ⟨none, "/no/such/dir/x.log", "", 0, INFO⟩) =
          .ok ((some l, none), w1) ∧
        l.GetWriter = some (.file file)) ∧
    New envFail world0 (some ⟨none, "/no/such/dir/x.log", "", 0, INFO⟩) =
      .ok ((none, some ⟨"no such file or directory"⟩),
        ⟨[], [⟨"/no/such/dir/x.log", 1089, 438, some ⟨"no such file or directory"⟩⟩], [], 3⟩) ∧
    New envOk world0 (some ⟨none, "/tmp/x.log", "", 0, INFO⟩) =
      .ok ((some ⟨some ⟨some (.file ⟨3, "/tmp/x.log"⟩), "", 0⟩, INFO,
          some (.file ⟨3, "/tmp/x.log"⟩)⟩, none),
        ⟨[], [⟨"/tmp/x.log", 1089, 438, none⟩], [], 4⟩) :=
  ⟨new_open_file envFail world0 ⟨none, "/no/such/dir/x.log", "", 0, INFO⟩ rfl, rfl, rfl⟩

end logger

namespace logger

/-! ## Sink management -/

/-- C8, as stated, fails at the nil writer: on a Logger built by `New`, `SetWriter(nil)`
returns and `GetWriter` then returns nil, but the next call of `Log` at a level not below
the threshold is not written to anything: it panics on the nil destination of the
formatter. -/
theorem setWriter_nil_counterexample :
    New envOk world0 (some ⟨some (.other 0), "", "", 0, INFO⟩) =
      .ok ((some ⟨some ⟨some (.other 0), "", 0⟩, INFO, some (.other 0)⟩, none), world0) ∧
    Logger.SetWriter ⟨some ⟨some (.other 0), "", 0⟩, INFO, some (.other 0)⟩ none =
      .ok ⟨some ⟨none, "", 0⟩, INFO, none⟩ ∧
    Logger.GetWriter ⟨some ⟨none, "", 0⟩, INFO, none⟩ = none ∧
    Logger.Log envOk world0 ⟨some ⟨none, "", 0⟩, INFO, none⟩ INFO [.str "x"] =
      .error .nilDeref ∧
    ¬ ∃ w1, Logger.Log envOk world0 ⟨some ⟨none, "", 0⟩, INFO, none⟩ INFO [.str "x"] =
      .ok w1 :=
  ⟨rfl, rfl, rfl, rfl, (by intro h; obtain ⟨w1, hw1⟩ := h; cases hw1)⟩

/-- C8, amended. For a Logger returned by `New` and every argument of `SetWriter`, the nil
writer included, `SetWriter` returns normally; afterwards `GetWriter` returns the argument
and the threshold is as before. When the argument is a writer (not nil), every call of `Log`
or `Logf` at a level not below the threshold, in any later world, makes exactly one `Write`
call, whose destination is the new writer, so nothing is written to any other writer, the
previous sink included when it is a different writer. `SetWriter` itself takes no world: it
writes to nothing and closes nothing, and an emission leaves the closed handles and the
opened files as they were. -/
theorem setWriter_post (env : Env) (w0 w1 : World) (args : InitArgs) (l : Logger)
    (writer : Option Writer) (hnew : New env w0 (some args) = .ok ((some l, none), w1)) :
    ∃ l1, l.SetWriter writer = .ok l1 ∧
      l1.GetWriter = writer ∧ l1.LogLevel = l.LogLevel ∧
      ∀ dst, writer = some dst →
        ∀ (w : World) (level : Int) (format : String) (v : List Value), l1.LogLevel ≤ level →
          l1.Log env w level v =
            .ok (w.wrote env dst
              (formatHeader env w.writes.length args.Prefix args.Flags 3 ++
                (levelStr level ++ Sprint v ++ "\n"))) ∧
          l1.Logf env w level format v =
            .ok (w.wrote env dst
              (formatHeader env w.writes.length args.Prefix args.Flags 3 ++
                (levelStr level ++ env.Sprintf format v ++ "\n"))) := by
  obtain ⟨dst0, rfl⟩ := New_shape env w0 w1 args _ hnew
  refine ⟨⟨some ⟨writer, args.Prefix, args.Flags⟩, args.LogLevel, writer⟩,
    rfl, rfl, rfl, ?_⟩
  intro dst hdst w level format v hlevel
  have hnot : ¬ level < args.LogLevel := not_lt.mpr hlevel
  constructor
  · rw [Logger.Log, log_eq, if_neg hnot,
      emit_formatter env w _ 3 _ ⟨writer, args.Prefix, args.Flags⟩ dst rfl hdst
        (endsInNewline_append_newline _)]
  · rw [Logger.Logf, logf_eq, if_neg hnot,
      emit_formatter env w _ 3 _ ⟨writer, args.Prefix, args.Flags⟩ dst rfl hdst
        (endsInNewline_append_newline _)]

/-- C8, amended, on a Logger opened on `/tmp/x.log` whose sink is then set to another
writer: the line of `Warn("x")` goes to the new writer and the file handle receives
nothing. -/
theorem setWriter_post_witness :
    (∃ l1, Logger.SetWriter
          ⟨some ⟨some (.file ⟨3, "/tmp/x.log"⟩), "", 0⟩, INFO, some (.file ⟨3, "/tmp/x.log"⟩)⟩
          (some (.other 9)) = .ok l1 ∧
      l1.GetWriter = some (.other 9) ∧
      l1.LogLevel = (⟨some ⟨some (.file ⟨3, "/tmp/x.log"⟩), "", 0⟩, INFO,
        some (.file ⟨3, "/tmp/x.log"⟩)⟩ : Logger).LogLevel ∧
      ∀ dst, some (Writer.other 9) = some dst →
        ∀ (w : World) (level : Int) (format : String) (v : List Value), l1.LogLevel ≤ level →
          l1.Log envOk w level v =
            .ok (w.wrote envOk dst
              (formatHeader envOk w.writes.length "" 0 3 ++
                (levelStr level ++ Sprint v ++ "\n"))) ∧
          l1.Logf envOk w level format v =
            .ok (w.wrote envOk dst
              (formatHeader envOk w.writes.length "" 0 3 ++
                (levelStr level ++ envOk.Sprintf format v ++ "\n")))) ∧
    Logger.SetWriter
        ⟨some ⟨some (.file ⟨3, "/tmp/x.log"⟩), "", 0⟩, INFO, some (.file ⟨3, "/tmp/x.log"⟩)⟩
        (some (.other 9)) = .ok ⟨some ⟨some (.other 9), "", 0⟩, INFO, some (.other 9)⟩ ∧
    Logger.Warn envOk ⟨[], [⟨"/tmp/x.log", 1089, 438, none⟩], [], 4⟩
        ⟨some ⟨some (.other 9), "", 0⟩, INFO, some (.other 9)⟩ [.str "x"] =
      .ok ⟨[⟨.other 9, "[\x1b[1;43;37mWARN\x1b[0m]x\n", none⟩],
        [⟨"/tmp/x.log", 1089, 438, none⟩], [], 4⟩ :=
  ⟨setWriter_post envOk world0 ⟨[], [⟨"/tmp/x.log", 1089, 438, none⟩], [], 4⟩
      ⟨none, "/tmp/x.log", "", 0, INFO⟩
      ⟨some ⟨some (.file ⟨3, "/tmp/x.log"⟩), "", 0⟩, INFO, some (.file ⟨3, "/tmp/x.log"⟩)⟩
      (some (.other 9)) rfl,
   rfl, rfl⟩

/-- C9. On a Logger whose sink is not a file handle (another kind of writer, or none),
`FileRotate` returns `(nil, nil)`; the world after the call is the world before it (no file
was opened) and the Logger is the same value: sink, formatter and threshold are as before. -/
theorem rotate_non_file (env : Env) (w : World) (l : Logger)
    (h : ∀ file, l.writer ≠ some (.file file)) :
    l.FileRotate env w = .ok ((none, none), w, l) := by
  unfold Logger.FileRotate
  split
  · next file hfile => exact absurd hfile (h file)
  · rfl

/-- C9, on a Logger whose sink is a writer that is not a file. -/
theorem rotate_non_file_witness :
    Logger.FileRotate envOk world0 ⟨some ⟨some (.other 0), "", 0⟩, INFO, some (.other 0)⟩ =
      .ok ((none, none), world0, ⟨some ⟨some (.other 0), "", 0⟩, INFO, some (.other 0)⟩) :=
  rotate_non_file envOk world0 ⟨some ⟨some (.other 0), "", 0⟩, INFO, some (.other 0)⟩
    (by intro file h; cases h)

/-- C10. On a Logger whose sink is a file handle, when the `os.OpenFile` call on the name of
that handle fails, `FileRotate` returns `(nil, err)` with the error of the call, the world
has changed by that failed call only, and the Logger is the same value: sink, formatter and
threshold are as before. So where the formatter wrote to the old handle before, a later call
of `Log` or `Logf` at a level not below the threshold still makes its one `Write` call on
the old handle. -/
theorem rotate_failure (env : Env) (w w1 : World) (l : Logger) (file : File) (err : Error)
    (hsink : l.writer = some (.file file))
    (hopen : OpenFile env w file.Name (O_WRONLY ||| O_APPEND ||| O_CREATE) 0o666 =
      (.error err, w1)) :
    l.FileRotate env w = .ok ((none, some err), w1, l) ∧
    w1 = { w with opens := w.opens ++ [⟨file.Name, fileFlag, fileMode, some err⟩] } ∧
    ∀ (lg : StdLogger), l.Logger = some lg → lg.out = some (.file file) →
      ∀ (w2 : World) (level : Int) (format : String) (v : List Value), l.LogLevel ≤ level →
        l.Log env w2 level v =
          .ok (w2.wrote env (.file file)
            (formatHeader env w2.writes.length lg.pre lg.flag 3 ++
              (levelStr level ++ Sprint v ++ "\n"))) ∧
        l.Logf env w2 level format v =
          .ok (w2.wrote env (.file file)
            (formatHeader env w2.writes.length lg.pre lg.flag 3 ++
              (levelStr level ++ env.Sprintf format v ++ "\n"))) := by
  have hopen2 : OpenFile env w file.Name fileFlag fileMode = (.error err, w1) := hopen
  refine ⟨?_, ?_, ?_⟩
  · simp only [Logger.FileRotate, hsink, hopen2]
  · unfold OpenFile at hopen2
    cases ho : env.openErr w.opens.length file.Name with
    | none => simp [ho] at hopen2
    | some e =>
      simp only [ho, Prod.mk.injEq, Except.error.injEq] at hopen2
      obtain ⟨he, hw⟩ := hopen2
      rw [← hw, he]
  · intro lg hlg hout w2 level format v hlevel
    have hnot : ¬ level < l.LogLevel := not_lt.mpr hlevel
    constructor
    · rw [Logger.Log, log_eq, if_neg hnot,
        emit_formatter env w2 l 3 _ lg (.file file) hlg hout (endsInNewline_append_newline _)]
    · rw [Logger.Logf, logf_eq, if_neg hnot,
        emit_formatter env w2 l 3 _ lg (.file file) hlg hout (endsInNewline_append_newline _)]

/-- C10, on a Logger opened on `/tmp/x.log` where the reopen fails: `(nil, err)`, the Logger
unchanged, and `Err("x")` afterwards written to the old handle 3. -/
theorem rotate_failure_witness :
    (Logger.FileRotate envFail ⟨[], [⟨"/tmp/x.log", 1089, 438, none⟩], [], 4⟩
        ⟨some ⟨some (.file ⟨3, "/tmp/x.log"⟩), "", 0⟩, INFO, some (.file ⟨3, "/tmp/x.log"⟩)⟩ =
      .ok ((none, some ⟨"no such file or directory"⟩),
        ⟨[], [⟨"/tmp/x.log", 1089, 438, none⟩,
          ⟨"/tmp/x.log", 1089, 438, some ⟨"no such file or directory"⟩⟩], [], 4⟩,
        ⟨some ⟨some (.file ⟨3, "/tmp/x.log"⟩), "", 0⟩, INFO,
          some (.file ⟨3, "/tmp/x.log"⟩)⟩)) ∧
    Logger.Err envFail
        ⟨[], [⟨"/tmp/x.log", 1089, 438, none⟩,
          ⟨"/tmp/x.log", 1089, 438, some ⟨"no such file or directory"⟩⟩], [], 4⟩
        ⟨some ⟨some (.file ⟨3, "/tmp/x.log"⟩), "", 0⟩, INFO, some (.file ⟨3, "/tmp/x.log"⟩)⟩
        [.str "x"] =
      .ok ⟨[⟨.file ⟨3, "/tmp/x.log"⟩, "[\x1b[1;41;37mERR\x1b[0m]x\n",
          some ⟨"input/output error"⟩⟩],
        [⟨"/tmp/x.log", 1089, 438, none⟩,
          ⟨"/tmp/x.log", 1089, 438, some ⟨"no such file or directory"⟩⟩], [], 4⟩ :=
  ⟨(rotate_failure envFail ⟨[], [⟨"/tmp/x.log", 1089, 438, none⟩], [], 4⟩
      ⟨[], [⟨"/tmp/x.log", 1089, 438, none⟩,
        ⟨"/tmp/x.log", 1089, 438, some ⟨"no such file or directory"⟩⟩], [], 4⟩
      ⟨some ⟨some (.file ⟨3, "/tmp/x.log"⟩), "", 0⟩, INFO, some (.file ⟨3, "/tmp/x.log"⟩)⟩
      ⟨3, "/tmp/x.log"⟩ ⟨"no such file or directory"⟩ rfl rfl).1,
   rfl⟩

end logger

namespace logger

/-! ## Lemmas on single calls -/

theorem SetWriter_of_formatter (l : Logger) (lg : StdLogger) (writer : Option Writer)
    (h : l.Logger = some lg) :
    l.SetWriter writer = .ok ⟨some (lg.SetOutput writer), l.LogLevel, writer⟩ := by
  simp only [Logger.SetWriter, h]

theorem SetWriter_without_formatter (l : Logger) (writer : Option Writer)
    (h : l.Logger = none) : l.SetWriter writer = .error .nilDeref := by
  simp only [Logger.SetWriter, h]

theorem Sprint_single (s : String) : Sprint [.str s] = s := by
  simp [Sprint, doPrint, Value.render]

theorem emit_stdout (env : Env) (w : World) (l : Logger) (calldepth : Int) (s : String)
    (h : l.Logger = none) : l.emit env w calldepth s = .ok (w.wrote env (.file Stdout) s) := by
  simp only [Logger.emit, h, Print, Writer.Write, Sprint_single, World.wrote]

theorem wrote_ne (env : Env) (w : World) (dst : Writer) (data : String) :
    w.wrote env dst data ≠ w := by
  intro h
  have hlen := congrArg (fun x => x.writes.length) h
  simp [World.wrote] at hlen

/-- A call that passes the filter is never a no-op: it panics or makes a `Write` call. -/
theorem emit_ne_noop (env : Env) (w : World) (l : Logger) (calldepth : Int) (s : String) :
    l.emit env w calldepth s ≠ .ok w := by
  unfold Logger.emit
  cases hl : l.Logger with
  | none =>
    simp only [Print, Writer.Write]
    intro h
    injection h with h
    exact wrote_ne env w (.file Stdout) (Sprint [.str s]) h
  | some lg =>
    cases ho : lg.out with
    | none => simp [StdLogger.Output, ho]
    | some dst =>
      simp only [StdLogger.Output, ho, Writer.Write]
      intro h
      injection h with h
      exact wrote_ne env w dst _ h

/-- An emission with a formatter that has a destination, or with no formatter, returns. -/
theorem emit_returns (env : Env) (w : World) (l : Logger) (calldepth : Int) (s : String)
    (h : ∀ lg, l.Logger = some lg → lg.out ≠ none) :
    ∃ w1, l.emit env w calldepth s = .ok w1 := by
  unfold Logger.emit
  cases hl : l.Logger with
  | none => exact ⟨_, rfl⟩
  | some lg =>
    cases ho : lg.out with
    | none => exact absurd ho (h lg hl)
    | some dst =>
      simp only [StdLogger.Output, ho]
      exact ⟨_, rfl⟩

theorem FileRotate_of_formatter (env : Env) (w : World) (l : Logger) (lg : StdLogger)
    (h : l.Logger = some lg) :
    ∃ res w1 l1, l.FileRotate env w = .ok (res, w1, l1) ∧ l1.LogLevel = l.LogLevel ∧
      (l1 = l ∨ ∃ file, l1 = ⟨some (lg.SetOutput (some (.file file))), l.LogLevel,
        some (.file file)⟩) := by
  unfold Logger.FileRotate
  split
  · next file hfile =>
    cases ho : OpenFile env w file.Name fileFlag fileMode with
    | mk res w1 =>
      cases res with
      | error err => exact ⟨_, _, _, rfl, rfl, Or.inl rfl⟩
      | ok fileNew =>
        simp only [SetWriter_of_formatter l lg _ h]
        exact ⟨_, _, _, rfl, rfl, Or.inr ⟨fileNew, rfl⟩⟩
  · exact ⟨_, _, _, rfl, rfl, Or.inl rfl⟩

theorem New_agrees (env : Env) (w0 w1 : World) (args : InitArgs) (l : Logger)
    (h : New env w0 (some args) = .ok ((some l, none), w1)) :
    l.agrees ∧ l.writer ≠ none := by
  obtain ⟨dst, rfl⟩ := New_shape env w0 w1 args _ h
  exact ⟨⟨_, rfl, rfl⟩, by simp⟩

/-- One call that returns keeps the agreement of formatter and sink, and the threshold. -/
theorem run_keeps (env : Env) (w w1 : World) (l l1 : Logger) (c : Call) (ha : l.agrees)
    (h : c.run env w l = .ok (w1, l1)) : l1.agrees ∧ l1.LogLevel = l.LogLevel := by
  obtain ⟨lg, hlg, hout⟩ := ha
  cases c with
  | SetWriter writer =>
    simp only [Call.run, SetWriter_of_formatter l lg writer hlg] at h
    injection h with h
    simp only [Prod.mk.injEq] at h
    rw [← h.2]
    exact ⟨⟨_, rfl, rfl⟩, rfl⟩
  | FileRotate =>
    obtain ⟨res, w2, l2, hrot, hlevel, hl2⟩ := FileRotate_of_formatter env w l lg hlg
    simp only [Call.run, hrot] at h
    injection h with h
    simp only [Prod.mk.injEq] at h
    rw [← h.2]
    refine ⟨?_, hlevel⟩
    rcases hl2 with hsame | ⟨file, hnew⟩
    · rw [hsame]; exact ⟨lg, hlg, hout⟩
    · rw [hnew]; exact ⟨_, rfl, rfl⟩
  | Log level v =>
    simp only [Call.run] at h
    cases hr : l.Log env w level v with
    | error p => simp [hr] at h
    | ok w2 =>
      simp only [hr] at h
      injection h with h
      simp only [Prod.mk.injEq] at h
      rw [← h.2]
      exact ⟨⟨lg, hlg, hout⟩, rfl⟩
  | Logf level format v =>
    simp only [Call.run] at h
    cases hr : l.Logf env w level format v with
    | error p => simp [hr] at h
    | ok w2 =>
      simp only [hr] at h
      injection h with h
      simp only [Prod.mk.injEq] at h
      rw [← h.2]
      exact ⟨⟨lg, hlg, hout⟩, rfl⟩

/-- A run that returns keeps the agreement of formatter and sink, and the threshold. -/
theorem runCalls_keeps (env : Env) (cs : List Call) :
    ∀ (w w1 : World) (l l1 : Logger), l.agrees → runCalls env w l cs = .ok (w1, l1) →
      l1.agrees ∧ l1.LogLevel = l.LogLevel := by
  induction cs with
  | nil =>
    intro w w1 l l1 ha h
    simp only [runCalls] at h
    injection h with h
    simp only [Prod.mk.injEq] at h
    rw [← h.2]
    exact ⟨ha, rfl⟩
  | cons c cs ih =>
    intro w w1 l l1 ha h
    simp only [runCalls] at h
    cases hr : c.run env w l with
    | error p => simp [hr] at h
    | ok r =>
      obtain ⟨w2, l2⟩ := r
      simp only [hr] at h
      obtain ⟨ha2, hlevel2⟩ := run_keeps env w w2 l l2 c ha hr
      obtain ⟨ha1, hlevel1⟩ := ih w2 w1 l2 l1 ha2 h
      exact ⟨ha1, hlevel1.trans hlevel2⟩

/-- With a sink that is not nil, a call other than `SetWriter(nil)` returns and leaves a
sink that is not nil. -/
theorem run_returns (env : Env) (w : World) (l : Logger) (c : Call) (ha : l.agrees)
    (hs : l.writer ≠ none) (hc : c ≠ .SetWriter none) :
    ∃ w1 l1, c.run env w l = .ok (w1, l1) ∧ l1.agrees ∧ l1.writer ≠ none := by
  obtain ⟨lg, hlg, hout⟩ := ha
  have hdst : ∀ lg2, l.Logger = some lg2 → lg2.out ≠ none := by
    intro lg2 h2
    rw [hlg] at h2
    injection h2 with h2
    rw [← h2, hout]
    exact hs
  cases c with
  | SetWriter writer =>
    cases writer with
    | none => exact absurd rfl hc
    | some wr =>
      refine ⟨w, ⟨some (lg.SetOutput (some wr)), l.LogLevel, some wr⟩, ?_, ⟨_, rfl, rfl⟩, ?_⟩
      · simp only [Call.run, SetWriter_of_formatter l lg (some wr) hlg]
      · simp
  | FileRotate =>
    obtain ⟨res, w2, l2, hrot, _, hl2⟩ := FileRotate_of_formatter env w l lg hlg
    refine ⟨w2, l2, by simp only [Call.run, hrot], ?_⟩
    rcases hl2 with hsame | ⟨file, hnew⟩
    · rw [hsame]; exact ⟨⟨lg, hlg, hout⟩, hs⟩
    · rw [hnew]; exact ⟨⟨_, rfl, rfl⟩, by simp⟩
  | Log level v =>
    have hret : ∃ w1, l.Log env w level v = .ok w1 := by
      rw [Logger.Log, log_eq]
      split
      · exact ⟨w, rfl⟩
      · exact emit_returns env w l 3 _ hdst
    obtain ⟨w2, hw2⟩ := hret
    exact ⟨w2, l, by simp only [Call.run, hw2], ⟨lg, hlg, hout⟩, hs⟩
  | Logf level format v =>
    have hret : ∃ w1, l.Logf env w level format v = .ok w1 := by
      rw [Logger.Logf, logf_eq]
      split
      · exact ⟨w, rfl⟩
      · exact emit_returns env w l 3 _ hdst
    obtain ⟨w2, hw2⟩ := hret
    exact ⟨w2, l, by simp only [Call.run, hw2], ⟨lg, hlg, hout⟩, hs⟩

/-- With a sink that is not nil, a run without `SetWriter(nil)` returns and leaves a sink
that is not nil. -/
theorem runCalls_returns (env : Env) (cs : List Call) :
    ∀ (w : World) (l : Logger), l.agrees → l.writer ≠ none →
      (∀ c ∈ cs, c ≠ .SetWriter none) →
      ∃ w1 l1, runCalls env w l cs = .ok (w1, l1) ∧ l1.agrees ∧ l1.writer ≠ none := by
  induction cs with
  | nil =>
    intro w l ha hs _
    exact ⟨w, l, rfl, ha, hs⟩
  | cons c cs ih =>
    intro w l ha hs hcs
    obtain ⟨w2, l2, hrun, ha2, hs2⟩ :=
      run_returns env w l c ha hs (hcs c (List.mem_cons_self c cs))
    obtain ⟨w1, l1, hrest, ha1, hs1⟩ :=
      ih w2 l2 ha2 hs2 (fun c2 hc2 => hcs c2 (List.mem_cons_of_mem c hc2))
    exact ⟨w1, l1, by simp only [runCalls, hrun, hrest], ha1, hs1⟩

end logger

namespace logger

/-! ## Rotation and the sink over a run of calls -/

/-- C11. On a Logger with a formatter whose sink is a file handle `file` that exists in the
world, when the `os.OpenFile` call on the name of that handle (write-only, append, create,
mode 0666) succeeds with the handle `fileNew`, `FileRotate` returns `(file, nil)`;
afterwards `GetWriter` returns `fileNew` and the threshold is as before; `fileNew` is a
different handle with the same name, so a further rotation opens the same path; the call
writes to nothing and closes nothing; and every later call of `Log` or `Logf` at a level not
below the threshold makes exactly one `Write` call, on `fileNew`. -/
theorem rotate_success (env : Env) (w w1 : World) (l : Logger) (lg : StdLogger)
    (file fileNew : File)
    (hsink : l.writer = some (.file file)) (hfmt : l.Logger = some lg)
    (hlive : file.fd < w.nextFd)
    (hopen : OpenFile env w file.Name (O_WRONLY ||| O_APPEND ||| O_CREATE) 0o666 =
      (.ok fileNew, w1)) :
    ∃ l1, l.FileRotate env w = .ok ((some file, none), w1, l1) ∧
      l1.GetWriter = some (.file fileNew) ∧ l1.LogLevel = l.LogLevel ∧
      fileNew.Name = file.Name ∧ fileNew ≠ file ∧
      w1.closed = w.closed ∧ w1.writes = w.writes ∧
      ∀ (w2 : World) (level : Int) (format : String) (v : List Value), l1.LogLevel ≤ level →
        l1.Log env w2 level v =
          .ok (w2.wrote env (.file fileNew)
            (formatHeader env w2.writes.length lg.pre lg.flag 3 ++
              (levelStr level ++ Sprint v ++ "\n"))) ∧
        l1.Logf env w2 level format v =
          .ok (w2.wrote env (.file fileNew)
            (formatHeader env w2.writes.length lg.pre lg.flag 3 ++
              (levelStr level ++ env.Sprintf format v ++ "\n"))) := by
  have hopen2 : OpenFile env w file.Name fileFlag fileMode = (.ok fileNew, w1) := hopen
  have hshape : fileNew = ⟨w.nextFd, file.Name⟩ ∧
      w1 = { w with opens := w.opens ++ [⟨file.Name, fileFlag, fileMode, none⟩],
                    nextFd := w.nextFd + 1 } := by
    have h3 := hopen2
    unfold OpenFile at h3
    cases ho : env.openErr w.opens.length file.Name with
    | some e => simp [ho] at h3
    | none =>
      simp only [ho, Prod.mk.injEq, Except.ok.injEq] at h3
      exact ⟨h3.1.symm, h3.2.symm⟩
  refine ⟨⟨some (lg.SetOutput (some (.file fileNew))), l.LogLevel, some (.file fileNew)⟩,
    ?_, rfl, rfl, ?_, ?_, ?_, ?_, ?_⟩
  · simp only [Logger.FileRotate, hsink, hopen2, SetWriter_of_formatter l lg _ hfmt]
  · rw [hshape.1]; rfl
  · intro hsame
    have hfd : fileNew.fd = w.nextFd := by rw [hshape.1]
    rw [hsame] at hfd
    omega
  · rw [hshape.2]
  · rw [hshape.2]
  · intro w2 level format v hlevel
    have hnot : ¬ level < l.LogLevel := not_lt.mpr hlevel
    constructor
    · rw [Logger.Log, log_eq, if_neg hnot,
        emit_formatter env w2 _ 3 _ (lg.SetOutput (some (.file fileNew))) (.file fileNew)
          rfl rfl (endsInNewline_append_newline _)]
      rfl
    · rw [Logger.Logf, logf_eq, if_neg hnot,
        emit_formatter env w2 _ 3 _ (lg.SetOutput (some (.file fileNew))) (.file fileNew)
          rfl rfl (endsInNewline_append_newline _)]
      rfl

/-- C11, on a Logger opened on `/tmp/x.log` (handle 3): the rotation returns handle 3, the
sink becomes handle 4 on the same path, and `Info("x")` afterwards is written to handle 4. -/
theorem rotate_success_witness :
    (∃ l1, Logger.FileRotate envOk ⟨[], [⟨"/tmp/x.log", 1089, 438, none⟩], [], 4⟩
        ⟨some ⟨some (.file ⟨3, "/tmp/x.log"⟩), "", 0⟩, INFO, some (.file ⟨3, "/tmp/x.log"⟩)⟩ =
        .ok ((some ⟨3, "/tmp/x.log"⟩, none),
          ⟨[], [⟨"/tmp/x.log", 1089, 438, none⟩, ⟨"/tmp/x.log", 1089, 438, none⟩], [], 5⟩,
          l1) ∧
      l1.GetWriter = some (.file ⟨4, "/tmp/x.log"⟩)) ∧
    Logger.Info envOk
        ⟨[], [⟨"/tmp/x.log", 1089, 438, none⟩, ⟨"/tmp/x.log", 1089, 438, none⟩], [], 5⟩
        ⟨some ⟨some (.file ⟨4, "/tmp/x.log"⟩), "", 0⟩, INFO, some (.file ⟨4, "/tmp/x.log"⟩)⟩
        [.str "x"] =
      .ok ⟨[⟨.file ⟨4, "/tmp/x.log"⟩, "[\x1b[1;42;37mINFO\x1b[0m]x\n", none⟩],
        [⟨"/tmp/x.log", 1089, 438, none⟩, ⟨"/tmp/x.log", 1089, 438, none⟩], [], 5⟩ :=
  ⟨(rotate_success envOk ⟨[], [⟨"/tmp/x.log", 1089, 438, none⟩], [], 4⟩
      ⟨[], [⟨"/tmp/x.log", 1089, 438, none⟩, ⟨"/tmp/x.log", 1089, 438, none⟩], [], 5⟩
      ⟨some ⟨some (.file ⟨3, "/tmp/x.log"⟩), "", 0⟩, INFO, some (.file ⟨3, "/tmp/x.log"⟩)⟩
      ⟨some (.file ⟨3, "/tmp/x.log"⟩), "", 0⟩ ⟨3, "/tmp/x.log"⟩ ⟨4, "/tmp/x.log"⟩
      rfl rfl (by decide) rfl).imp (fun _ h => ⟨h.1, h.2.1⟩),
   rfl⟩

/-- C12, as stated, fails: on a Logger built by `New` on a writer, the call `SetWriter(nil)`
returns and `GetWriter` then returns nil. -/
theorem sink_nil_counterexample :
    New envOk world0 (some ⟨some (.other 0), "", "", 0, INFO⟩) =
      .ok ((some ⟨some ⟨some (.other 0), "", 0⟩, INFO, some (.other 0)⟩, none), world0) ∧
    runCalls envOk world0 ⟨some ⟨some (.other 0), "", 0⟩, INFO, some (.other 0)⟩
        [.SetWriter none] =
      .ok (world0, ⟨some ⟨none, "", 0⟩, INFO, none⟩) ∧
    Logger.GetWriter ⟨some ⟨none, "", 0⟩, INFO, none⟩ = none :=
  ⟨rfl, rfl, rfl⟩

/-- C12, amended. For a Logger returned by `New` and a list of `SetWriter`, `FileRotate`,
`Log` and `Logf` calls in which no `SetWriter` is given the nil writer: whenever the first
`n` calls of the list have all returned, `GetWriter` is not nil after them. -/
theorem sink_never_nil (env : Env) (w0 w1 w w2 : World) (args : InitArgs) (l l2 : Logger)
    (cs : List Call) (n : Nat)
    (hnew : New env w0 (some args) = .ok ((some l, none), w1))
    (hcs : ∀ c ∈ cs, c ≠ .SetWriter none)
    (hrun : runCalls env w l (cs.take n) = .ok (w2, l2)) :
    l2.GetWriter ≠ none := by
  obtain ⟨ha, hs⟩ := New_agrees env w0 w1 args l hnew
  obtain ⟨w3, l3, hrun3, _, hs3⟩ :=
    runCalls_returns env (cs.take n) w l ha hs (fun c hc => hcs c (List.mem_of_mem_take hc))
  rw [hrun3] at hrun
  injection hrun with hrun
  simp only [Prod.mk.injEq] at hrun
  rw [← hrun.2]
  exact hs3

/-- C12, amended, on a Logger opened on `/tmp/x.log`: after a rotation, a `SetWriter` to
another writer and an emission, the sink is that writer. -/
theorem sink_never_nil_witness :
    Logger.GetWriter ⟨some ⟨some (.other 9), "", 0⟩, INFO, some (.other 9)⟩ ≠ none ∧
    runCalls envOk ⟨[], [⟨"/tmp/x.log", 1089, 438, none⟩], [], 4⟩
        ⟨some ⟨some (.file ⟨3, "/tmp/x.log"⟩), "", 0⟩, INFO, some (.file ⟨3, "/tmp/x.log"⟩)⟩
        [Call.FileRotate, .SetWriter (some (.other 9)), .Log WARN [.str "x"]] =
      .ok (⟨[⟨.other 9, "[\x1b[1;43;37mWARN\x1b[0m]x\n", none⟩],
          [⟨"/tmp/x.log", 1089, 438, none⟩, ⟨"/tmp/x.log", 1089, 438, none⟩], [], 5⟩,
        ⟨some ⟨some (.other 9), "", 0⟩, INFO, some (.other 9)⟩) :=
  ⟨sink_never_nil envOk world0 ⟨[], [⟨"/tmp/x.log", 1089, 438, none⟩], [], 4⟩
      ⟨[], [⟨"/tmp/x.log", 1089, 438, none⟩], [], 4⟩
      ⟨[⟨.other 9, "[\x1b[1;43;37mWARN\x1b[0m]x\n", none⟩],
        [⟨"/tmp/x.log", 1089, 438, none⟩, ⟨"/tmp/x.log", 1089, 438, none⟩], [], 5⟩
      ⟨none, "/tmp/x.log", "", 0, INFO⟩
      ⟨some ⟨some (.file ⟨3, "/tmp/x.log"⟩), "", 0⟩, INFO, some (.file ⟨3, "/tmp/x.log"⟩)⟩
      ⟨some ⟨some (.other 9), "", 0⟩, INFO, some (.other 9)⟩
      [Call.FileRotate, .SetWriter (some (.other 9)), .Log WARN [.str "x"]] 3 rfl
      (by decide) rfl,
   rfl⟩

end logger

namespace logger

/-! ## Panics -/

theorem New_returns (env : Env) (w : World) (args : InitArgs) :
    ∃ r, New env w (some args) = .ok r := by
  cases hw : args.Writer with
  | some writer =>
    simp only [New, hw]
    exact ⟨_, rfl⟩
  | none =>
    simp only [New, hw]
    generalize OpenFile env w args.Filename fileFlag fileMode = r
    obtain ⟨res, w1⟩ := r
    cases res <;> exact ⟨_, rfl⟩

/-- C13, as stated, fails: `New` called with a nil `*InitArgs` panics on reading
`args.LogLevel`; and on a Logger built by `New`, `Log` after `SetWriter(nil)` panics on the
nil destination of the formatter. -/
theorem new_nil_args_counterexample :
    New envOk world0 none = .error .nilDeref ∧
    (¬ ∃ r, New envOk world0 none = .ok r) ∧
    New envOk world0 (some ⟨some (.other 0), "", "", 0, INFO⟩) =
      .ok ((some ⟨some ⟨some (.other 0), "", 0⟩, INFO, some (.other 0)⟩, none), world0) ∧
    runCalls envOk world0 ⟨some ⟨some (.other 0), "", 0⟩, INFO, some (.other 0)⟩
        [.SetWriter none, .Log INFO [.str "x"]] = .error .nilDeref :=
  ⟨rfl, (by intro h; obtain ⟨r, hr⟩ := h; cases hr), rfl, rfl⟩

/-- C13, amended. These calls return without a panic. `New` on arguments that are not nil.
`Log` and `Logf` at every level (so also the methods named after a level) when the level is
below the threshold, or the Logger has no formatter, or the destination of its formatter is a
file handle (a `*os.File` that is not nil). `SetWriter` with every argument, nil included, on
a Logger that has a formatter. `FileRotate` on a Logger whose sink is not a `*os.File`, and
on a Logger that has a formatter and whose sink is a file handle. `GetWriter` reads a field
and is a total function. -/
theorem no_panic (env : Env) (w : World) (l : Logger) (args : InitArgs)
    (writer : Option Writer) (level : Int) (format : String) (v : List Value) :
    (∃ r, New env w (some args) = .ok r) ∧
    (level < l.LogLevel ∨ l.Logger = none ∨
        (∃ lg file, l.Logger = some lg ∧ lg.out = some (.file file)) →
      (∃ w1, l.Log env w level v = .ok w1) ∧ (∃ w1, l.Logf env w level format v = .ok w1)) ∧
    (l.Logger ≠ none → ∃ l1, l.SetWriter writer = .ok l1) ∧
    ((∀ file, l.writer ≠ some (.file file)) ∨
        ((∃ file, l.writer = some (.file file)) ∧ l.Logger ≠ none) →
      ∃ r, l.FileRotate env w = .ok r) := by
  refine ⟨New_returns env w args, ?_, ?_, ?_⟩
  · intro hcond
    rw [Logger.Log, Logger.Logf, log_eq, logf_eq]
    by_cases hlow : level < l.LogLevel
    · rw [if_pos hlow, if_pos hlow]
      exact ⟨⟨w, rfl⟩, ⟨w, rfl⟩⟩
    · rw [if_neg hlow, if_neg hlow]
      have hdst : ∀ lg, l.Logger = some lg → lg.out ≠ none := by
        intro lg hlg
        rcases hcond with h | h | ⟨lg2, file, hlg2, hout⟩
        · exact absurd h hlow
        · rw [h] at hlg; cases hlg
        · rw [hlg2] at hlg
          injection hlg with hlg
          rw [← hlg, hout]
          simp
      exact ⟨emit_returns env w l 3 _ hdst, emit_returns env w l 3 _ hdst⟩
  · intro hfmt
    cases hl : l.Logger with
    | none => exact absurd hl hfmt
    | some lg => exact ⟨_, SetWriter_of_formatter l lg writer hl⟩
  · intro h
    rcases h with hsink | ⟨_, hfmt⟩
    · unfold Logger.FileRotate
      split
      · next file hfile => exact absurd hfile (hsink file)
      · exact ⟨_, rfl⟩
    · cases hl : l.Logger with
      | none => exact absurd hl hfmt
      | some lg =>
        obtain ⟨res, w1, l1, hrot, _⟩ := FileRotate_of_formatter env w l lg hl
        exact ⟨_, hrot⟩

/-- C13, amended, on a Logger without a formatter and without a sink: `Log`, `Logf` and
`FileRotate` return; and on a Logger opened on `/tmp/x.log`: `Log`, `SetWriter(nil)` and
`FileRotate` return. -/
theorem no_panic_witness :
    ((∃ w1, Logger.Log envOk world0 ⟨none, INFO, none⟩ ERR [.str "x"] = .ok w1) ∧
      (∃ w1, Logger.Logf envOk world0 ⟨none, INFO, none⟩ ERR "%s" [.str "x"] = .ok w1)) ∧
    (∃ r, Logger.FileRotate envOk world0 ⟨none, INFO, none⟩ = .ok r) ∧
    ((∃ w1, Logger.Log envFail ⟨[], [⟨"/tmp/x.log", 1089, 438, none⟩], [], 4⟩
        ⟨some ⟨some (.file ⟨3, "/tmp/x.log"⟩), "", 0⟩, INFO, some (.file ⟨3, "/tmp/x.log"⟩)⟩
        ERR [.str "x"] = .ok w1) ∧
      (∃ w1, Logger.Logf envFail ⟨[], [⟨"/tmp/x.log", 1089, 438, none⟩], [], 4⟩
        ⟨some ⟨some (.file ⟨3, "/tmp/x.log"⟩), "", 0⟩, INFO, some (.file ⟨3, "/tmp/x.log"⟩)⟩
        ERR "%s" [.str "x"] = .ok w1)) ∧
    (∃ l1, Logger.SetWriter
        ⟨some ⟨some (.file ⟨3, "/tmp/x.log"⟩), "", 0⟩, INFO, some (.file ⟨3, "/tmp/x.log"⟩)⟩
        none = .ok l1) ∧
    (∃ r, Logger.FileRotate envFail ⟨[], [⟨"/tmp/x.log", 1089, 438, none⟩], [], 4⟩
        ⟨some ⟨some (.file ⟨3, "/tmp/x.log"⟩), "", 0⟩, INFO, some (.file ⟨3, "/tmp/x.log"⟩)⟩
        = .ok r) ∧
    Logger.Log envOk world0 ⟨none, INFO, none⟩ ERR [.str "x"] =
      .ok ⟨[⟨.file Stdout, "[\x1b[1;41;37mERR\x1b[0m]x\n", none⟩], [], [], 3⟩ :=
  ⟨(no_panic envOk world0 ⟨none, INFO, none⟩ ⟨none, "", "", 0, INFO⟩ none ERR "%s"
      [.str "x"]).2.1 (Or.inr (Or.inl rfl)),
   (no_panic envOk world0 ⟨none, INFO, none⟩ ⟨none, "", "", 0, INFO⟩ none ERR "%s"
      [.str "x"]).2.2.2 (Or.inl (by intro file h; cases h)),
   (no_panic envFail ⟨[], [⟨"/tmp/x.log", 1089, 438, none⟩], [], 4⟩
      ⟨some ⟨some (.file ⟨3, "/tmp/x.log"⟩), "", 0⟩, INFO, some (.file ⟨3, "/tmp/x.log"⟩)⟩
      ⟨none, "", "", 0, INFO⟩ none ERR "%s" [.str "x"]).2.1
      (Or.inr (Or.inr ⟨_, _, rfl, rfl⟩)),
   (no_panic envFail ⟨[], [⟨"/tmp/x.log", 1089, 438, none⟩], [], 4⟩
      ⟨some ⟨some (.file ⟨3, "/tmp/x.log"⟩), "", 0⟩, INFO, some (.file ⟨3, "/tmp/x.log"⟩)⟩
      ⟨none, "", "", 0, INFO⟩ none ERR "%s" [.str "x"]).2.2.1 (by simp),
   (no_panic envFail ⟨[], [⟨"/tmp/x.log", 1089, 438, none⟩], [], 4⟩
      ⟨some ⟨some (.file ⟨3, "/tmp/x.log"⟩), "", 0⟩, INFO, some (.file ⟨3, "/tmp/x.log"⟩)⟩
      ⟨none, "", "", 0, INFO⟩ none ERR "%s" [.str "x"]).2.2.2
      (Or.inr ⟨⟨_, rfl⟩, by simp⟩),
   rfl⟩

/-! ## The message body -/

theorem doPrint_succ (v : List Value) :
    ∀ (prev : Value) (n : Nat),
      doPrint prev.isString (n + 1) v =
        match v with
        | [] => ""
        | b :: _ => separator prev b ++ spacedConcat v := by
  induction v with
  | nil => intro prev n; rfl
  | cons b rest ih =>
    intro prev n
    have hsep : (if (0 < n + 1 && !b.isString && !prev.isString) = true then " " else "")
        = separator prev b := by
      unfold separator
      cases prev.isString <;> cases b.isString <;> simp
    simp only [doPrint, hsep]
    rw [ih b (n + 1)]
    cases rest with
    | nil => simp [spacedConcat, String.append_assoc]
    | cons c rest2 => simp [spacedConcat, String.append_assoc]

/-- Go `fmt.Sprint` is the concatenation with the documented separator. -/
theorem Sprint_eq_spacedConcat (v : List Value) : Sprint v = spacedConcat v := by
  cases v with
  | nil => rfl
  | cons a rest =>
    simp only [Sprint, doPrint]
    rw [doPrint_succ rest a 0]
    cases rest with
    | nil => simp [spacedConcat]
    | cons b rest2 => simp [spacedConcat, String.append_assoc]

theorem spacedConcat_cons_string (a : Value) (rest : List Value) (h : a.isString = true) :
    spacedConcat (a :: rest) = a.render ++ spacedConcat rest := by
  cases rest with
  | nil => simp [spacedConcat]
  | cons b rest2 => simp [spacedConcat, separator, h]

/-- Operands that are all strings are concatenated with nothing in between. -/
theorem spacedConcat_strings (v : List Value) (h : ∀ a ∈ v, a.isString = true) :
    spacedConcat v = plainConcat v := by
  induction v with
  | nil => rfl
  | cons a rest ih =>
    rw [spacedConcat_cons_string a rest (h a (List.mem_cons_self a rest)),
      ih (fun b hb => h b (List.mem_cons_of_mem a hb))]
    rfl

end logger

namespace logger

/-- C14, as stated, fails: `Log(INFO, 1, 2)` writes the body `1 2`, with a space that
`fmt.Sprint` puts between two operands that are not strings, and not `12`. -/
theorem body_space_counterexample :
    Logger.Log envOk world0 ⟨some ⟨some (.other 0), "", 0⟩, INFO, some (.other 0)⟩ INFO
        [.int 1, .int 2] =
      .ok ⟨[⟨.other 0, "[\x1b[1;42;37mINFO\x1b[0m]1 2\n", none⟩], [], [], 3⟩ ∧
    Sprint [.int 1, .int 2] = "1 2" ∧
    plainConcat [.int 1, .int 2] = "12" ∧
    Sprint [.int 1, .int 2] ≠ plainConcat [.int 1, .int 2] :=
  ⟨rfl, by decide, by decide, by decide⟩

/-- C14, amended. For a Logger returned by `New` and a level not below the threshold, the
body that `Log` writes between the label and the final newline is the default renderings of
the operands in order, with one space between two neighbours when neither of them is a
string and nothing between them otherwise. When all operands are strings the body is their
plain concatenation. -/
theorem body_is_sprint (env : Env) (w0 w1 w : World) (args : InitArgs) (l : Logger)
    (level : Int) (v : List Value)
    (hnew : New env w0 (some args) = .ok ((some l, none), w1))
    (hlevel : l.LogLevel ≤ level) :
    ∃ dst, l.GetWriter = some dst ∧
      l.Log env w level v =
        .ok (w.wrote env dst
          (formatHeader env w.writes.length args.Prefix args.Flags 3 ++
            (levelStr level ++ spacedConcat v ++ "\n"))) ∧
      ((∀ a ∈ v, a.isString = true) → spacedConcat v = plainConcat v) := by
  obtain ⟨dst, rfl⟩ := New_shape env w0 w1 args _ hnew
  have hnot : ¬ level < args.LogLevel := not_lt.mpr hlevel
  refine ⟨dst, rfl, ?_, spacedConcat_strings v⟩
  rw [Logger.Log, log_eq, if_neg hnot,
    emit_formatter env w _ 3 _ ⟨some dst, args.Prefix, args.Flags⟩ dst rfl rfl
      (endsInNewline_append_newline _), Sprint_eq_spacedConcat]

/-- C14, amended, on `Log(INFO, "a", "b")`: the body is `ab`. -/
theorem body_is_sprint_witness :
    (∃ dst, Logger.GetWriter ⟨some ⟨some (.other 0), "", 0⟩, INFO, some (.other 0)⟩ = some dst ∧
      Logger.Log envOk world0 ⟨some ⟨some (.other 0), "", 0⟩, INFO, some (.other 0)⟩ INFO
          [.str "a", .str "b"] =
        .ok (world0.wrote envOk dst
          (formatHeader envOk world0.writes.length "" 0 3 ++
            (levelStr INFO ++ spacedConcat [.str "a", .str "b"] ++ "\n"))) ∧
      ((∀ a ∈ [Value.str "a", Value.str "b"], a.isString = true) →
        spacedConcat [.str "a", .str "b"] = plainConcat [.str "a", .str "b"])) ∧
    Logger.Log envOk world0 ⟨some ⟨some (.other 0), "", 0⟩, INFO, some (.other 0)⟩ INFO
        [.str "a", .str "b"] =
      .ok ⟨[⟨.other 0, "[\x1b[1;42;37mINFO\x1b[0m]ab\n", none⟩], [], [], 3⟩ ∧
    spacedConcat [.str "a", .int 1, .int 2, .str "b", .bool true, .nil] = "a1 2btrue <nil>" :=
  ⟨body_is_sprint envOk world0 world0 world0 ⟨some (.other 0), "", "", 0, INFO⟩
      ⟨some ⟨some (.other 0), "", 0⟩, INFO, some (.other 0)⟩ INFO [.str "a", .str "b"]
      rfl (by decide),
   rfl, by decide⟩

/-! ## Write errors, the methods named after a level, standard output -/

/-- C15. When the `Write` call of an emission fails (on the destination of the formatter,
or on standard output for a Logger without a formatter), `Log` and `Logf` return normally;
their result carries no error; the world has changed by that one failed `Write` call only,
so nothing was written again or elsewhere; the Logger is taken by value and stays as it
was. -/
theorem write_error_swallowed (env : Env) (w : World) (l : Logger) (dst : Writer)
    (err : Error) (level : Int) (format : String) (v : List Value)
    (hdst : (∃ lg, l.Logger = some lg ∧ lg.out = some dst) ∨
      (l.Logger = none ∧ dst = .file Stdout))
    (herr : env.writeErr w.writes.length dst = some err)
    (hlevel : l.LogLevel ≤ level) :
    (∃ data, l.Log env w level v =
      .ok { w with writes := w.writes ++ [⟨dst, data, some err⟩] }) ∧
    (∃ data, l.Logf env w level format v =
      .ok { w with writes := w.writes ++ [⟨dst, data, some err⟩] }) := by
  have hnot : ¬ level < l.LogLevel := not_lt.mpr hlevel
  have hemit : ∀ s, endsInNewline s →
      ∃ data, l.emit env w 3 s = .ok { w with writes := w.writes ++ [⟨dst, data, some err⟩] } := by
    intro s hs
    rcases hdst with ⟨lg, hlg, hout⟩ | ⟨hnone, hstd⟩
    · refine ⟨formatHeader env w.writes.length lg.pre lg.flag 3 ++ s, ?_⟩
      rw [emit_formatter env w l 3 s lg dst hlg hout hs]
      simp only [World.wrote, herr]
    · refine ⟨s, ?_⟩
      rw [emit_stdout env w l 3 s hnone, ← hstd]
      simp only [World.wrote, herr]
  constructor
  · rw [Logger.Log, log_eq, if_neg hnot]
    exact hemit _ (endsInNewline_append_newline _)
  · rw [Logger.Logf, logf_eq, if_neg hnot]
    exact hemit _ (endsInNewline_append_newline _)

/-- C15, where every write fails: `Err("x")` returns, and the world holds the one failed
`Write` call. -/
theorem write_error_swallowed_witness :
    ((∃ data, Logger.Log envFail world0
          ⟨some ⟨some (.other 0), "", 0⟩, INFO, some (.other 0)⟩ ERR [.str "x"] =
        .ok { world0 with writes := world0.writes ++
          [⟨.other 0, data, some ⟨"input/output error"⟩⟩] }) ∧
      (∃ data, Logger.Logf envFail world0
          ⟨some ⟨some (.other 0), "", 0⟩, INFO, some (.other 0)⟩ ERR "%s" [.str "x"] =
        .ok { world0 with writes := world0.writes ++
          [⟨.other 0, data, some ⟨"input/output error"⟩⟩] })) ∧
    Logger.Err envFail world0 ⟨some ⟨some (.other 0), "", 0⟩, INFO, some (.other 0)⟩
        [.str "x"] =
      .ok ⟨[⟨.other 0, "[\x1b[1;41;37mERR\x1b[0m]x\n", some ⟨"input/output error"⟩⟩],
        [], [], 3⟩ :=
  ⟨write_error_swallowed envFail world0 ⟨some ⟨some (.other 0), "", 0⟩, INFO, some (.other 0)⟩
      (.other 0) ⟨"input/output error"⟩ ERR "%s" [.str "x"] (Or.inl ⟨_, rfl, rfl⟩) rfl
      (by decide),
   rfl⟩

/-- C16. Each method named after a level is the generic method at that level: same world
afterwards (same `Write` call, same bytes) or same panic, for every world, Logger and
arguments; and all of them reach `log` and `logf` with the call depth 3. -/
theorem level_methods (env : Env) (w : World) (l : Logger) (level : Int) (format : String)
    (v : List Value) :
    (l.Info env w v = l.Log env w INFO v ∧ l.Infof env w format v = l.Logf env w INFO format v) ∧
    (l.Notice env w v = l.Log env w NOTICE v ∧
      l.Noticef env w format v = l.Logf env w NOTICE format v) ∧
    (l.Warn env w v = l.Log env w WARN v ∧ l.Warnf env w format v = l.Logf env w WARN format v) ∧
    (l.Err env w v = l.Log env w ERR v ∧ l.Errf env w format v = l.Logf env w ERR format v) ∧
    (l.Crit env w v = l.Log env w CRIT v ∧ l.Critf env w format v = l.Logf env w CRIT format v) ∧
    (l.Emerg env w v = l.Log env w EMERG v ∧
      l.Emergf env w format v = l.Logf env w EMERG format v) ∧
    (l.Log env w level v = l.log env w 3 level v ∧
      l.Logf env w level format v = l.logf env w 3 level format v) ∧
    (l.Info env w v = l.log env w 3 INFO v ∧ l.Infof env w format v = l.logf env w 3 INFO format v ∧
      l.Notice env w v = l.log env w 3 NOTICE v ∧
      l.Noticef env w format v = l.logf env w 3 NOTICE format v ∧
      l.Warn env w v = l.log env w 3 WARN v ∧ l.Warnf env w format v = l.logf env w 3 WARN format v ∧
      l.Err env w v = l.log env w 3 ERR v ∧ l.Errf env w format v = l.logf env w 3 ERR format v ∧
      l.Crit env w v = l.log env w 3 CRIT v ∧ l.Critf env w format v = l.logf env w 3 CRIT format v ∧
      l.Emerg env w v = l.log env w 3 EMERG v ∧
      l.Emergf env w format v = l.logf env w 3 EMERG format v) :=
  ⟨⟨rfl, rfl⟩, ⟨rfl, rfl⟩, ⟨rfl, rfl⟩, ⟨rfl, rfl⟩, ⟨rfl, rfl⟩, ⟨rfl, rfl⟩, ⟨rfl, rfl⟩,
    rfl, rfl, rfl, rfl, rfl, rfl, rfl, rfl, rfl, rfl, rfl, rfl⟩

/-- C17. On a Logger without a formatter, `Log` and `Logf` at a level not below the
threshold make exactly one `Write` call, on `os.Stdout`, with the bytes label, body, newline
(no header), and no other writer receives anything; below the threshold they do nothing. -/
theorem stdout_fallback (env : Env) (w : World) (l : Logger) (level : Int) (format : String)
    (v : List Value) (h : l.Logger = none) :
    (l.LogLevel ≤ level →
      l.Log env w level v =
        .ok (w.wrote env (.file Stdout) (levelStr level ++ Sprint v ++ "\n")) ∧
      l.Logf env w level format v =
        .ok (w.wrote env (.file Stdout) (levelStr level ++ env.Sprintf format v ++ "\n"))) ∧
    (level < l.LogLevel → l.Log env w level v = .ok w ∧ l.Logf env w level format v = .ok w) := by
  constructor
  · intro hlevel
    have hnot : ¬ level < l.LogLevel := not_lt.mpr hlevel
    constructor
    · rw [Logger.Log, log_eq, if_neg hnot, emit_stdout env w l 3 _ h]
    · rw [Logger.Logf, logf_eq, if_neg hnot, emit_stdout env w l 3 _ h]
  · intro hlow
    simp only [Logger.Log, Logger.Logf, log_eq, logf_eq, hlow, if_true, and_self]

/-- C17, on a Logger without a formatter at threshold WARN: `Crit("x")` goes to standard
output, `Info("x")` nowhere. -/
theorem stdout_fallback_witness :
    (Logger.Log envOk world0 ⟨none, WARN, none⟩ CRIT [.str "x"] =
        .ok (world0.wrote envOk (.file Stdout) (levelStr CRIT ++ Sprint [.str "x"] ++ "\n")) ∧
      Logger.Logf envOk world0 ⟨none, WARN, none⟩ CRIT "%s" [.str "x"] =
        .ok (world0.wrote envOk (.file Stdout)
          (levelStr CRIT ++ envOk.Sprintf "%s" [.str "x"] ++ "\n"))) ∧
    (Logger.Log envOk world0 ⟨none, WARN, none⟩ INFO [.str "x"] = .ok world0 ∧
      Logger.Logf envOk world0 ⟨none, WARN, none⟩ INFO "%s" [.str "x"] = .ok world0) ∧
    Logger.Crit envOk world0 ⟨none, WARN, none⟩ [.str "x"] =
      .ok ⟨[⟨.file ⟨1, "/dev/stdout"⟩, "[\x1b[1;45;37mCRIT\x1b[0m]x\n", none⟩], [], [], 3⟩ :=
  ⟨(stdout_fallback envOk world0 ⟨none, WARN, none⟩ CRIT "%s" [.str "x"] rfl).1 (by decide),
   (stdout_fallback envOk world0 ⟨none, WARN, none⟩ INFO "%s" [.str "x"] rfl).2 (by decide),
   rfl⟩

end logger

namespace logger

/-! ## Invariants over a run of calls -/

theorem SetWriter_level (l l1 : Logger) (writer : Option Writer)
    (h : l.SetWriter writer = .ok l1) : l1.LogLevel = l.LogLevel := by
  cases hl : l.Logger with
  | none => rw [SetWriter_without_formatter l writer hl] at h; cases h
  | some lg =>
    rw [SetWriter_of_formatter l lg writer hl] at h
    injection h with h
    rw [← h]

theorem FileRotate_level (env : Env) (w w1 : World) (l l1 : Logger)
    (res : Option File × Option Error) (h : l.FileRotate env w = .ok (res, w1, l1)) :
    l1.LogLevel = l.LogLevel := by
  cases hl : l.Logger with
  | some lg =>
    obtain ⟨res2, w2, l2, hrot, hlevel, _⟩ := FileRotate_of_formatter env w l lg hl
    rw [hrot] at h
    injection h with h
    simp only [Prod.mk.injEq] at h
    rw [← h.2.2]
    exact hlevel
  | none =>
    unfold Logger.FileRotate at h
    split at h
    · next file hfile =>
      generalize OpenFile env w file.Name fileFlag fileMode = r at h
      obtain ⟨res2, w2⟩ := r
      cases res2 with
      | error err =>
        simp only at h
        injection h with h
        simp only [Prod.mk.injEq] at h
        rw [← h.2.2]
      | ok fileNew =>
        simp only [SetWriter_without_formatter l _ hl] at h
        cases h
    · injection h with h
      simp only [Prod.mk.injEq] at h
      rw [← h.2.2]

/-- One call that returns leaves the threshold as it was, on every Logger. -/
theorem run_level (env : Env) (w w1 : World) (l l1 : Logger) (c : Call)
    (h : c.run env w l = .ok (w1, l1)) : l1.LogLevel = l.LogLevel := by
  cases c with
  | SetWriter writer =>
    simp only [Call.run] at h
    cases hr : l.SetWriter writer with
    | error p => simp [hr] at h
    | ok l2 =>
      simp only [hr] at h
      injection h with h
      simp only [Prod.mk.injEq] at h
      rw [← h.2]
      exact SetWriter_level l l2 writer hr
  | FileRotate =>
    simp only [Call.run] at h
    cases hr : l.FileRotate env w with
    | error p => simp [hr] at h
    | ok r =>
      obtain ⟨res, w2, l2⟩ := r
      simp only [hr] at h
      injection h with h
      simp only [Prod.mk.injEq] at h
      rw [← h.2]
      exact FileRotate_level env w w2 l l2 res hr
  | Log level v =>
    simp only [Call.run] at h
    cases hr : l.Log env w level v with
    | error p => simp [hr] at h
    | ok w2 =>
      simp only [hr] at h
      injection h with h
      simp only [Prod.mk.injEq] at h
      rw [← h.2]
  | Logf level format v =>
    simp only [Call.run] at h
    cases hr : l.Logf env w level format v with
    | error p => simp [hr] at h
    | ok w2 =>
      simp only [hr] at h
      injection h with h
      simp only [Prod.mk.injEq] at h
      rw [← h.2]

/-- A run that returns leaves the threshold as it was, on every Logger. -/
theorem runCalls_level (env : Env) (cs : List Call) :
    ∀ (w w1 : World) (l l1 : Logger), runCalls env w l cs = .ok (w1, l1) →
      l1.LogLevel = l.LogLevel := by
  induction cs with
  | nil =>
    intro w w1 l l1 h
    simp only [runCalls] at h
    injection h with h
    simp only [Prod.mk.injEq] at h
    rw [← h.2]
  | cons c cs ih =>
    intro w w1 l l1 h
    simp only [runCalls] at h
    cases hr : c.run env w l with
    | error p => simp [hr] at h
    | ok r =>
      obtain ⟨w2, l2⟩ := r
      simp only [hr] at h
      exact (ih w2 w1 l2 l1 h).trans (run_level env w w2 l l2 c hr)

/-- Whether `log` does anything is decided by the comparison of level and threshold. -/
theorem log_acts_iff (env : Env) (w : World) (l : Logger) (calldepth level : Int)
    (v : List Value) : l.log env w calldepth level v ≠ .ok w ↔ l.LogLevel ≤ level := by
  rw [log_eq]
  constructor
  · intro h
    by_contra hlow
    exact h (if_pos (not_le.mp hlow))
  · intro hlevel
    rw [if_neg (not_lt.mpr hlevel)]
    exact emit_ne_noop env w l calldepth _

theorem logf_acts_iff (env : Env) (w : World) (l : Logger) (calldepth level : Int)
    (format : String) (v : List Value) :
    l.logf env w calldepth level format v ≠ .ok w ↔ l.LogLevel ≤ level := by
  rw [logf_eq]
  constructor
  · intro h
    by_contra hlow
    exact h (if_pos (not_le.mp hlow))
  · intro hlevel
    rw [if_neg (not_lt.mpr hlevel)]
    exact emit_ne_noop env w l calldepth _

/-- C19. In every state that a run of `SetWriter`, `FileRotate`, `Log` and `Logf` calls
reaches from a Logger returned by `New`, the Logger has a formatter and the destination of
the formatter is what `GetWriter` returns; so when `GetWriter` returns a writer, a call of
`Log` or `Logf` at a level not below the threshold makes exactly one `Write` call, on that
writer. -/
theorem sink_formatter_agree (env : Env) (w0 w1 w w2 : World) (args : InitArgs)
    (l l2 : Logger) (cs : List Call)
    (hnew : New env w0 (some args) = .ok ((some l, none), w1))
    (hrun : runCalls env w l cs = .ok (w2, l2)) :
    ∃ lg, l2.Logger = some lg ∧ lg.out = l2.GetWriter ∧
      ∀ dst, l2.GetWriter = some dst →
        ∀ (w3 : World) (level : Int) (format : String) (v : List Value),
          l2.LogLevel ≤ level →
          l2.Log env w3 level v =
            .ok (w3.wrote env dst
              (formatHeader env w3.writes.length lg.pre lg.flag 3 ++
                (levelStr level ++ Sprint v ++ "\n"))) ∧
          l2.Logf env w3 level format v =
            .ok (w3.wrote env dst
              (formatHeader env w3.writes.length lg.pre lg.flag 3 ++
                (levelStr level ++ env.Sprintf format v ++ "\n"))) := by
  obtain ⟨ha, _⟩ := New_agrees env w0 w1 args l hnew
  obtain ⟨⟨lg, hlg, hout⟩, _⟩ := runCalls_keeps env cs w w2 l l2 ha hrun
  refine ⟨lg, hlg, hout, ?_⟩
  intro dst hdst w3 level format v hlevel
  have hnot : ¬ level < l2.LogLevel := not_lt.mpr hlevel
  have hout2 : lg.out = some dst := hout.trans hdst
  constructor
  · rw [Logger.Log, log_eq, if_neg hnot,
      emit_formatter env w3 l2 3 _ lg dst hlg hout2 (endsInNewline_append_newline _)]
  · rw [Logger.Logf, logf_eq, if_neg hnot,
      emit_formatter env w3 l2 3 _ lg dst hlg hout2 (endsInNewline_append_newline _)]

/-- C19, on a Logger opened on `/tmp/x.log`: after a rotation, a `SetWriter`, an emission
and a rotation that finds no file, formatter and sink both hold the writer set last. -/
theorem sink_formatter_agree_witness :
    (∃ lg, (⟨some ⟨some (.other 9), "", 0⟩, INFO, some (.other 9)⟩ : Logger).Logger = some lg ∧
      lg.out = Logger.GetWriter ⟨some ⟨some (.other 9), "", 0⟩, INFO, some (.other 9)⟩) ∧
    runCalls envOk ⟨[], [⟨"/tmp/x.log", 1089, 438, none⟩], [], 4⟩
        ⟨some ⟨some (.file ⟨3, "/tmp/x.log"⟩), "", 0⟩, INFO, some (.file ⟨3, "/tmp/x.log"⟩)⟩
        [Call.FileRotate, .SetWriter (some (.other 9)), .Log WARN [.str "x"], .FileRotate] =
      .ok (⟨[⟨.other 9, "[\x1b[1;43;37mWARN\x1b[0m]x\n", none⟩],
          [⟨"/tmp/x.log", 1089, 438, none⟩, ⟨"/tmp/x.log", 1089, 438, none⟩], [], 5⟩,
        ⟨some ⟨some (.other 9), "", 0⟩, INFO, some (.other 9)⟩) :=
  ⟨(sink_formatter_agree envOk world0 ⟨[], [⟨"/tmp/x.log", 1089, 438, none⟩], [], 4⟩
      ⟨[], [⟨"/tmp/x.log", 1089, 438, none⟩], [], 4⟩
      ⟨[⟨.other 9, "[\x1b[1;43;37mWARN\x1b[0m]x\n", none⟩],
        [⟨"/tmp/x.log", 1089, 438, none⟩, ⟨"/tmp/x.log", 1089, 438, none⟩], [], 5⟩
      ⟨none, "/tmp/x.log", "", 0, INFO⟩
      ⟨some ⟨some (.file ⟨3, "/tmp/x.log"⟩), "", 0⟩, INFO, some (.file ⟨3, "/tmp/x.log"⟩)⟩
      ⟨some ⟨some (.other 9), "", 0⟩, INFO, some (.other 9)⟩
      [Call.FileRotate, .SetWriter (some (.other 9)), .Log WARN [.str "x"], .FileRotate]
      rfl rfl).imp (fun _ h => ⟨h.1, h.2.1⟩),
   rfl⟩

/-- C20. A call of `Log` or `Logf` does something (it makes a `Write` call or panics on a
nil destination, rather than returning with the world untouched) exactly when its level is
not below the threshold, whatever the other arguments, the world and the rest of the Logger
are. So a call that does something at level `level` under the threshold of `l` also does
something at every level `level2` above it and under every threshold `threshold2` below.
And a run of `SetWriter`, `FileRotate`, `Log` and `Logf` calls that returns leaves the
threshold as it was. -/
theorem filter_monotone (env : Env) (w : World) (l : Logger) (level level2 threshold2 : Int)
    (format : String) (v : List Value) :
    ((l.Log env w level v ≠ .ok w ↔ l.LogLevel ≤ level) ∧
      (l.Logf env w level format v ≠ .ok w ↔ l.LogLevel ≤ level)) ∧
    (level ≤ level2 → threshold2 ≤ l.LogLevel →
      (l.Log env w level v ≠ .ok w →
        Logger.Log env w { l with LogLevel := threshold2 } level2 v ≠ .ok w) ∧
      (l.Logf env w level format v ≠ .ok w →
        Logger.Logf env w { l with LogLevel := threshold2 } level2 format v ≠ .ok w)) ∧
    (∀ (cs : List Call) (w2 : World) (l2 : Logger),
      runCalls env w l cs = .ok (w2, l2) → l2.LogLevel = l.LogLevel) := by
  refine ⟨⟨log_acts_iff env w l 3 level v, logf_acts_iff env w l 3 level format v⟩, ?_, ?_⟩
  · intro hlevel hthreshold
    constructor
    · intro h
      have h1 : l.LogLevel ≤ level := (log_acts_iff env w l 3 level v).mp h
      exact (log_acts_iff env w { l with LogLevel := threshold2 } 3 level2 v).mpr
        (le_trans hthreshold (le_trans h1 hlevel))
    · intro h
      have h1 : l.LogLevel ≤ level := (logf_acts_iff env w l 3 level format v).mp h
      exact (logf_acts_iff env w { l with LogLevel := threshold2 } 3 level2 format v).mpr
        (le_trans hthreshold (le_trans h1 hlevel))
  · intro cs w2 l2 h
    exact runCalls_level env cs w w2 l l2 h

/-- C20, at threshold WARN: `Log(WARN, "x")` writes, so `Log(EMERG, "x")` under the
threshold INFO writes too, and the threshold after a rotation and a `SetWriter` is WARN. -/
theorem filter_monotone_witness :
    (Logger.Log envOk world0 ⟨some ⟨some (.other 0), "", 0⟩, WARN, some (.other 0)⟩ WARN
        [.str "x"] ≠ .ok world0 →
      Logger.Log envOk world0
        { (⟨some ⟨some (.other 0), "", 0⟩, WARN, some (.other 0)⟩ : Logger) with
          LogLevel := INFO } EMERG [.str "x"] ≠ .ok world0) ∧
    Logger.Log envOk world0 ⟨some ⟨some (.other 0), "", 0⟩, WARN, some (.other 0)⟩ WARN
        [.str "x"] ≠ .ok world0 ∧
    Logger.Log envOk world0 ⟨some ⟨some (.other 0), "", 0⟩, INFO, some (.other 0)⟩ EMERG
        [.str "x"] =
      .ok ⟨[⟨.other 0, "[\x1b[1;45;37mEMERG\x1b[0m]x\n", none⟩], [], [], 3⟩ ∧
    runCalls envOk world0 ⟨some ⟨some (.other 0), "", 0⟩, WARN, some (.other 0)⟩
        [Call.FileRotate, .SetWriter (some (.other 9))] =
      .ok (world0, ⟨some ⟨some (.other 9), "", 0⟩, WARN, some (.other 9)⟩) :=
  ⟨((filter_monotone envOk world0 ⟨some ⟨some (.other 0), "", 0⟩, WARN, some (.other 0)⟩
      WARN EMERG INFO "%s" [.str "x"]).2.1 (by decide) (by decide)).1,
   (filter_monotone envOk world0 ⟨some ⟨some (.other 0), "", 0⟩, WARN, some (.other 0)⟩
      WARN EMERG INFO "%s" [.str "x"]).1.1.mpr (by decide),
   rfl, rfl⟩

end logger
